import Mathlib

/-!
# Verification of the pb-mc-sync reconciliation engine

Shallow embedding of the three sync passes of the repository:

* Pass A — `src/scripts/sync/fetch_mailchimp_unsubscribes.py` together with
  `Database.update_opt_in_from_mailchimp` in `src/db/database.py`;
* Pass B — `sync_pabau_clients` / `sync_pabau_leads` in
  `src/scripts/sync/sync_pabau_to_db.py`, with the transforms of
  `src/utils/transforms.py` and the upsert helpers of `src/db/database.py`;
* Pass C — `sync_to_mailchimp` in `src/scripts/sync/sync_db_to_mailchimp.py`.

Database rows are lists of structures; SQL timestamps are naturals (seconds
since the Unix epoch); the Python `datetime.strptime` call used to parse a
record's `created_date` is a parameter (`String → Option Timestamp`), so that
every property proved about the parsing path holds for every parser.
Table columns that no proved property observes (names, phones, addresses,
appointment payloads) are omitted from the row structures; each definition
notes the omission where it is made.
-/

/-- A SQL / Python timestamp, modelled as seconds since the Unix epoch. -/
abbrev Timestamp := Nat

/-- `MAX(col)` of SQL over the non-NULL values of a column, `none` when every
value is NULL or the table is empty. -/
def maxTS : List Timestamp → Option Timestamp
  | [] => none
  | t :: ts =>
    match maxTS ts with
    | none => some t
    | some m => some (max t m)

/-- A value sitting in the `created_date` slot of a transformed record.  The
upstream payload is a dynamic dictionary, so the slot may hold a string, a
`datetime`, or a value of any other type; `sync_pabau_to_db.py` distinguishes
exactly these three shapes with `isinstance` checks. -/
inductive DateVal where
  | vStr (s : String)
  | vDt (t : Timestamp)
  | vOther
deriving DecidableEq, Repr

/-- Python truthiness of a `created_date` value, used by the
`if not created_date_str:` guard: `None` is handled by the caller, the empty
string is falsy, a `datetime` is truthy.  A falsy value of any other type
would be skipped by that same guard; `vOther` is modelled as truthy and is
then skipped by the `isinstance` else-branch, which has the identical
outcome (`skipped_old += 1; continue`). -/
def DateVal.isFalsy : DateVal → Bool
  | vStr s => s == ""
  | vDt _ => false
  | vOther => false

/-- A row of the `clients` table.  Carried columns are exactly the ones read
by the three sync scripts; the remaining columns (names, phones, dob,
mailchimp_id, mailchimp_tags, …) are carried through the upserts unchanged
and observed by no proved property, so they are omitted. -/
structure ClientRow where
  id : Nat
  pabau_id : Int
  email : Option String
  opt_in_email : Int
  opt_in_phone : Int
  is_active : Int
  created_date : Option DateVal
  pabau_last_synced_at : Option Timestamp
  mailchimp_status : Option String
deriving DecidableEq, Repr

/-- A row of the `leads` table, with the same column policy as `ClientRow`. -/
structure LeadRow where
  id : Nat
  pabau_id : Int
  email : Option String
  opt_in_email_mailchimp : Int
  is_active : Int
  created_date : Option DateVal
  pabau_last_synced_at : Option Timestamp
  mailchimp_status : Option String
deriving DecidableEq, Repr

/-- A row of the append-only `sync_logs` table, as written by
`Database.log_sync`; `created_at` is the `CURRENT_TIMESTAMP` default of the
table. -/
structure LogEntry where
  entity_type : Option String
  entity_id : Option Nat
  pabau_id : Option Int
  email : Option String
  action : String
  status : String
  message : Option String
  created_at : Timestamp
deriving DecidableEq, Repr

/-- The durable store: the three tables the sync passes touch, the serial-id
counters of `clients` and `leads`, and `now`, the database clock backing
`CURRENT_TIMESTAMP` (bumped on every write so that successive log rows get
distinct, increasing timestamps). -/
structure Store where
  clients : List ClientRow
  leads : List LeadRow
  log : List LogEntry
  nextClientId : Nat
  nextLeadId : Nat
  now : Timestamp
deriving DecidableEq, Repr

/-- `Database.log_sync`: append one audit row stamped with the database
clock. -/
def Store.logSync (st : Store) (entity_type : Option String)
    (entity_id : Option Nat) (pabau_id : Option Int) (email : Option String)
    (action status : String) (message : Option String) : Store :=
  { st with
    log := st.log ++ [{ entity_type := entity_type, entity_id := entity_id,
                        pabau_id := pabau_id, email := email, action := action,
                        status := status, message := message,
                        created_at := st.now }],
    now := st.now + 1 }

/-- The `mailchimp_status` literal written by
`Database.update_opt_in_from_mailchimp`:
`CASE WHEN %s = 1 THEN 'subscribed' ELSE 'unsubscribed' END`. -/
def mcStatusFor (optIn : Int) : String :=
  if optIn = 1 then "subscribed" else "unsubscribed"

/-- `Database.update_opt_in_from_mailchimp` (`src/db/database.py` 345-372).
The SQL matches rows with `WHERE email = %s`: exact, case-sensitive string
equality against a non-NULL parameter.  The clients table is tried first; if
any client row matched, the function returns `'client'` without touching the
leads table; otherwise the leads table is tried the same way. -/
def update_opt_in_from_mailchimp (st : Store) (email : String) (optIn : Int) :
    Store × Option String :=
  if st.clients.any (fun c => c.email == some email) then
    ({ st with clients := st.clients.map (fun c =>
        if c.email == some email then
          { c with opt_in_email := optIn,
                   mailchimp_status := some (mcStatusFor optIn) }
        else c) }, some "client")
  else if st.leads.any (fun l => l.email == some email) then
    ({ st with leads := st.leads.map (fun l =>
        if l.email == some email then
          { l with opt_in_email_mailchimp := optIn,
                   mailchimp_status := some (mcStatusFor optIn) }
        else l) }, some "lead")
  else (st, none)

/-- Pass A, `fetch_unsubscribes` (`fetch_mailchimp_unsubscribes.py`): for each
member of the sink's unsubscribed list (given here by its `email_address`
values, in order), set `opt_in_email` to 0 through
`update_opt_in_from_mailchimp` and write one success log row when a store
entity matched.  The unmatched case only bumps an in-memory counter. -/
def fetch_unsubscribes (st : Store) (members : List String) : Store :=
  members.foldl
    (fun st email =>
      let r := update_opt_in_from_mailchimp st email 0
      match r.2 with
      | some t =>
          r.1.logSync (some t) none none (some email) "mailchimp_unsubscribe"
            "success" (some ("Updated " ++ t ++ " opt_in_email to 0"))
      | none => r.1)
    st

/-- A value of a Pabau custom field (`field.get('value')` on a dynamic
payload): absent (`None`), an integer, a string, or anything else. -/
inductive CFVal where
  | cfNone
  | cfInt (n : Int)
  | cfStr (s : String)
  | cfOther
deriving DecidableEq, Repr

/-- One element of a lead's `custom_fields` list.  `extract_custom_field`
guards each element with `isinstance(field, dict)`; a non-dict element
(`nonDict`) is skipped. -/
inductive CFEntry where
  | fld (name : String) (value : CFVal)
  | nonDict
deriving DecidableEq, Repr

/-- Python's `str.lower()` (over the character list, so that concrete
evaluations reduce in the kernel). -/
def pyLower (s : String) : String :=
  String.mk (s.data.map Char.toLower)

/-- Python's `int(s)` on a string: optional surrounding whitespace, an
optional sign, then decimal digits; `none` models the raised `ValueError`.
(The builtin additionally accepts underscore digit separators and non-ASCII
digits; no property proved here feeds it such a string.) -/
def pyInt? (s : String) : Option Int :=
  let t := ((s.data.dropWhile Char.isWhitespace).reverse.dropWhile
    Char.isWhitespace).reverse
  match t with
  | [] => none
  | c :: rest =>
    let sign : Int := if c = '-' then -1 else 1
    let digits := if c = '-' ∨ c = '+' then rest else c :: rest
    if digits ≠ [] ∧ digits.all Char.isDigit then
      some (sign *
        (digits.foldl (fun n d => n * 10 + (d.toNat - 48)) (0 : Nat) : Nat))
    else none

/-- The first element of `custom_fields` that is a dict whose `name` equals
`field_name`, as scanned by the loop of `extract_custom_field`. -/
def findField : List CFEntry → String → Option CFVal
  | [], _ => none
  | .nonDict :: rest, n => findField rest n
  | .fld name v :: rest, n => if name == n then some v else findField rest n

/-- `extract_custom_field` (`src/utils/transforms.py` 165-186).  An empty
list and a missing field both yield `None`.  A string value is converted:
`int(value)` when that parses, otherwise `0` if the lower-cased string is one
of `'0'`, `'false'`, `'no'`, `''` and `1` for every other string.  Non-string
values are returned as they are. -/
def extract_custom_field (custom_fields : List CFEntry) (field_name : String) :
    CFVal :=
  if custom_fields.isEmpty then .cfNone
  else
    match findField custom_fields field_name with
    | none => .cfNone
    | some v =>
      match v with
      | .cfStr s =>
        match pyInt? s with
        | some n => .cfInt n
        | none =>
          if ["0", "false", "no", ""].contains (pyLower s) then .cfInt 0
          else .cfInt 1
      | w => w

/-- The consent conversion of `transform_lead_for_db`
(`src/utils/transforms.py` 206-217): `None` maps to 0, an integer to 1
exactly when it equals 1, a string to 1 exactly when its lower-casing is one
of `'opted in'`, `'true'`, `'1'`, `'yes'` (this branch is unreachable through
`extract_custom_field`, which never returns a string, but is kept as the
source writes it), and everything else to 0. -/
def leadConsent (custom_fields : List CFEntry) : Int :=
  match extract_custom_field custom_fields "opt_in_email_lead" with
  | .cfNone => 0
  | .cfInt n => if n = 1 then 1 else 0
  | .cfStr s =>
    if ["opted in", "true", "1", "yes"].contains (pyLower s) then 1 else 0
  | .cfOther => 0

/-- The slots of a raw Pabau client payload read by `transform_client_for_db`
and by the sync loop.  The payload's remaining slots (names, phones,
appointments, …) are observed by no proved property and are omitted;
`transform_appointments_from_client` and the appointment upserts only touch
the `appointments` table, which no claim reads. -/
structure RawClient where
  details_id : Option Int
  is_active : Option Int
  email : Option String
  opt_in_email : Option Int
  opt_in_phone : Option Int
  created_date : Option DateVal
deriving DecidableEq, Repr

/-- The dictionary returned by `transform_client_for_db`
(`src/utils/transforms.py` 9-52), restricted to the carried slots; the
`.get(..., default)` defaults of the source (`is_active` 1, the opt-in flags
0) are applied here. -/
structure ClientData where
  pabau_id : Option Int
  email : Option String
  opt_in_email : Int
  opt_in_phone : Int
  is_active : Int
  created_date : Option DateVal
deriving DecidableEq, Repr

def transform_client_for_db (c : RawClient) : ClientData :=
  { pabau_id := c.details_id
    email := c.email
    opt_in_email := c.opt_in_email.getD 0
    opt_in_phone := c.opt_in_phone.getD 0
    is_active := c.is_active.getD 1
    created_date := c.created_date }

/-- The slots of a raw Pabau lead payload read by `transform_lead_for_db`
and by the sync loop; `created_date` sits under the payload's `dates` dict. -/
structure RawLead where
  lead_id : Option Int
  email : Option String
  is_active : Option Int
  created_date : Option DateVal
  custom_fields : List CFEntry
deriving DecidableEq, Repr

/-- The dictionary returned by `transform_lead_for_db`
(`src/utils/transforms.py` 189-265), restricted to the carried slots. -/
structure LeadData where
  pabau_id : Option Int
  email : Option String
  opt_in_email_mailchimp : Int
  is_active : Int
  created_date : Option DateVal
deriving DecidableEq, Repr

def transform_lead_for_db (l : RawLead) : LeadData :=
  { pabau_id := l.lead_id
    email := l.email
    opt_in_email_mailchimp := leadConsent l.custom_fields
    is_active := l.is_active.getD 1
    created_date := l.created_date }

/-- `Database.get_last_sync_time` (`src/db/database.py` 440-455) for
`entity_type = 'client'`: `SELECT MAX(pabau_last_synced_at) FROM clients`. -/
def get_last_sync_time (clients : List ClientRow) : Option Timestamp :=
  maxTS (clients.filterMap (fun c => c.pabau_last_synced_at))

/-- `Database.get_last_sync_time` for any other entity type:
`SELECT MAX(pabau_last_synced_at) FROM leads`. -/
def get_last_sync_time_leads (leads : List LeadRow) : Option Timestamp :=
  maxTS (leads.filterMap (fun l => l.pabau_last_synced_at))

/-- `Database.upsert_client` (`src/db/database.py` 83-135):
`INSERT ... ON CONFLICT (pabau_id) DO UPDATE`, full-column overwrite, with
`pabau_last_synced_at = CURRENT_TIMESTAMP`, returning the row id.  The
`ON CONFLICT (pabau_id)` clause presupposes the table's unique index on
`pabau_id`, so the conflicting row, when present, is unique. -/
def upsert_client (st : Store) (pid : Int) (d : ClientData) : Store × Nat :=
  match st.clients.find? (fun c => c.pabau_id == pid) with
  | some c0 =>
      ({ st with
          clients := st.clients.map (fun c =>
            if c.pabau_id == pid then
              { c with email := d.email, opt_in_email := d.opt_in_email,
                       opt_in_phone := d.opt_in_phone, is_active := d.is_active,
                       created_date := d.created_date,
                       pabau_last_synced_at := some st.now }
            else c),
          now := st.now + 1 }, c0.id)
  | none =>
      ({ st with
          clients := st.clients ++
            [{ id := st.nextClientId, pabau_id := pid, email := d.email,
               opt_in_email := d.opt_in_email, opt_in_phone := d.opt_in_phone,
               is_active := d.is_active, created_date := d.created_date,
               pabau_last_synced_at := some st.now, mailchimp_status := none }],
          nextClientId := st.nextClientId + 1,
          now := st.now + 1 }, st.nextClientId)

/-- `Database.upsert_lead` (`src/db/database.py` 243-301), same shape as
`upsert_client` against the `leads` table. -/
def upsert_lead (st : Store) (pid : Int) (d : LeadData) : Store × Nat :=
  match st.leads.find? (fun l => l.pabau_id == pid) with
  | some l0 =>
      ({ st with
          leads := st.leads.map (fun l =>
            if l.pabau_id == pid then
              { l with email := d.email,
                       opt_in_email_mailchimp := d.opt_in_email_mailchimp,
                       is_active := d.is_active, created_date := d.created_date,
                       pabau_last_synced_at := some st.now }
            else l),
          now := st.now + 1 }, l0.id)
  | none =>
      ({ st with
          leads := st.leads ++
            [{ id := st.nextLeadId, pabau_id := pid, email := d.email,
               opt_in_email_mailchimp := d.opt_in_email_mailchimp,
               is_active := d.is_active, created_date := d.created_date,
               pabau_last_synced_at := some st.now, mailchimp_status := none }],
          nextLeadId := st.nextLeadId + 1,
          now := st.now + 1 }, st.nextLeadId)

/-- The `UPDATE clients SET pabau_last_synced_at = %s WHERE id = %s` the sync
loop runs right after each upsert, overwriting the upsert's
`CURRENT_TIMESTAMP` stamp with the run's `sync_time`. -/
def stampClientSyncTime (st : Store) (dbId : Nat) (syncTime : Timestamp) :
    Store :=
  { st with
    clients := st.clients.map (fun c =>
      if c.id == dbId then { c with pabau_last_synced_at := some syncTime }
      else c),
    now := st.now + 1 }

/-- The same post-upsert `UPDATE` against the `leads` table. -/
def stampLeadSyncTime (st : Store) (dbId : Nat) (syncTime : Timestamp) :
    Store :=
  { st with
    leads := st.leads.map (fun l =>
      if l.id == dbId then { l with pabau_last_synced_at := some syncTime }
      else l),
    now := st.now + 1 }

/-- Python falsiness of an optional string: `None` and `''` are falsy, as in
the `if not client_data['email']:` guard. -/
def optStrFalsy : Option String → Bool
  | none => true
  | some s => s == ""

/-- The `created_date` filter block that both sync loops contain verbatim
(`sync_pabau_to_db.py` 99-121 and 256-278): with a cutoff in force, the
record passes only when its `created_date` is a truthy string parsing under
`datetime.strptime(_, '%Y-%m-%d %H:%M:%S')` to a time strictly after the
cutoff, or already a `datetime` strictly after the cutoff.  `strptime` is the
parser parameter (`none` models the raised `ValueError`). -/
def createdDatePasses (strptime : String → Option Timestamp)
    (cutoff : Option Timestamp) (created : Option DateVal) : Bool :=
  match cutoff with
  | none => true
  | some cut =>
    match created with
    | none => false
    | some v =>
      if v.isFalsy then false
      else
        match v with
        | .vStr s =>
          match strptime s with
          | none => false
          | some t => decide (cut < t)
        | .vDt t => decide (cut < t)
        | .vOther => false

/-- The in-memory counters and the store threaded through the client sync
loop.  (`appointments_updated` and the appointment upserts are omitted: they
touch only the `appointments` table, which no claim reads.) -/
structure PassBState where
  store : Store
  clientsUpdated : Nat
  skippedOld : Nat
  skippedNoEmail : Nat
deriving DecidableEq, Repr

/-- The body of the per-record loop of `sync_pabau_clients`
(`sync_pabau_to_db.py` 89-161): skip on missing email, skip on the cutoff
filter, otherwise upsert, re-stamp with `sync_time`, and write one success
log row.  A payload with no source id would make the keyed upsert raise in
the database layer, landing in the per-record `except` branch that writes an
error log row. -/
def processClient (strptime : String → Option Timestamp)
    (cutoff : Option Timestamp) (syncTime : Timestamp)
    (s : PassBState) (raw : RawClient) : PassBState :=
  let d := transform_client_for_db raw
  if optStrFalsy d.email then
    { s with skippedNoEmail := s.skippedNoEmail + 1 }
  else if createdDatePasses strptime cutoff d.created_date then
    match d.pabau_id with
    | none =>
        let st' := s.store.logSync (some "client") none none d.email
          "sync_pabau_client" "error" none
        { s with store := st' }
    | some pid =>
        let r := upsert_client s.store pid d
        let st2 := stampClientSyncTime r.1 r.2 syncTime
        let st3 := st2.logSync (some "client") (some r.2) (some pid) d.email
          "sync_pabau_client" "success" (some "Client and appointments synced")
        { s with store := st3, clientsUpdated := s.clientsUpdated + 1 }
  else
    { s with skippedOld := s.skippedOld + 1 }

/-- The counters and store threaded through the lead sync loop. -/
structure LeadPassState where
  store : Store
  updatedCount : Nat
  skippedOld : Nat
  skippedNoEmail : Nat
deriving DecidableEq, Repr

/-- The body of the per-record loop of `sync_pabau_leads`
(`sync_pabau_to_db.py` 246-311), same shape as `processClient` against the
`leads` table. -/
def processLead (strptime : String → Option Timestamp)
    (cutoff : Option Timestamp) (syncTime : Timestamp)
    (s : LeadPassState) (raw : RawLead) : LeadPassState :=
  let d := transform_lead_for_db raw
  if optStrFalsy d.email then
    { s with skippedNoEmail := s.skippedNoEmail + 1 }
  else if createdDatePasses strptime cutoff d.created_date then
    match d.pabau_id with
    | none =>
        let st' := s.store.logSync (some "lead") none none d.email
          "sync_pabau_lead" "error" none
        { s with store := st' }
    | some pid =>
        let r := upsert_lead s.store pid d
        let st2 := stampLeadSyncTime r.1 r.2 syncTime
        let st3 := st2.logSync (some "lead") (some r.2) (some pid) d.email
          "sync_pabau_lead" "success" (some "Lead synced")
        { s with store := st3, updatedCount := s.updatedCount + 1 }
  else
    { s with skippedOld := s.skippedOld + 1 }

/-- The `while True` page loop both sync functions run
(`sync_pabau_to_db.py` 71-164 and 228-314): fetch page 1, 2, … of the
source; an empty page breaks the loop, any non-empty page — however short —
is processed and followed by a further fetch.  `pages` is the sequence of
successive responses the source gives to pages 1, 2, …; a fetch beyond the
end of that sequence returns the empty page.  The second component counts
fetches made (the number of `get_contacts` / `get_leads` calls). -/
def runPages {σ α : Type} (process : σ → α → σ) :
    List (List α) → σ → σ × Nat
  | [], s => (s, 1)
  | p :: rest, s =>
    if p.isEmpty then (s, 1)
    else
      let r := runPages process rest (p.foldl process s)
      (r.1, r.2 + 1)

/-- The result of one Pass-B run: final loop state plus the number of pages
fetched. -/
structure PassBResult where
  state : PassBState
  pagesFetched : Nat
deriving DecidableEq, Repr

/-- `sync_pabau_clients` (`sync_pabau_to_db.py` 36-191): read the cutoff
(`get_last_sync_time('client')`), fetch and process every page, then write
the unconditional terminal `sync_pabau_clients_completed` success row.
`syncTime` is the run's wall-clock `sync_time = datetime.now()`. -/
def sync_pabau_clients (strptime : String → Option Timestamp)
    (pages : List (List RawClient)) (st0 : Store) (syncTime : Timestamp) :
    PassBResult :=
  let cutoff := get_last_sync_time st0.clients
  let init : PassBState :=
    { store := st0, clientsUpdated := 0, skippedOld := 0, skippedNoEmail := 0 }
  let r := runPages (processClient strptime cutoff syncTime) pages init
  let final := r.1.store.logSync (some "sync_run") none none none
    "sync_pabau_clients_completed" "success" (some "completed")
  { state := { r.1 with store := final }, pagesFetched := r.2 }

/-- The result of one lead-side Pass-B run. -/
structure LeadPassResult where
  state : LeadPassState
  pagesFetched : Nat
deriving DecidableEq, Repr

/-- `sync_pabau_leads` (`sync_pabau_to_db.py` 194-340), same shape as
`sync_pabau_clients` against the `leads` table. -/
def sync_pabau_leads (strptime : String → Option Timestamp)
    (pages : List (List RawLead)) (st0 : Store) (syncTime : Timestamp) :
    LeadPassResult :=
  let cutoff := get_last_sync_time_leads st0.leads
  let init : LeadPassState :=
    { store := st0, updatedCount := 0, skippedOld := 0, skippedNoEmail := 0 }
  let r := runPages (processLead strptime cutoff syncTime) pages init
  let final := r.1.store.logSync (some "sync_run") none none none
    "sync_pabau_leads_completed" "success" (some "completed")
  { state := { r.1 with store := final }, pagesFetched := r.2 }

/-- One entry of the `members_batch` list Pass C submits to the sink
(`sync_db_to_mailchimp.py` 209-214).  Of the merge fields only `MMERGE17`
(the system id) is carried: the others are optional decorations that never
decide whether an entry is in the batch; `system_id` records exactly the
value placed into `MMERGE17`. -/
structure Member where
  email_address : String
  status : String
  system_id : Int
  tags : List String
deriving DecidableEq, Repr

/-- `SELECT MAX(created_at) FROM sync_logs WHERE action IN
('sync_pabau_clients_completed', 'sync_pabau_leads_completed') AND status =
'success'` (`sync_db_to_mailchimp.py` 34-43). -/
def lastPabauSync (log : List LogEntry) : Option Timestamp :=
  maxTS ((log.filter (fun e =>
    (e.action == "sync_pabau_clients_completed" ∨
     e.action == "sync_pabau_leads_completed") ∧ e.status == "success")).map
      (fun e => e.created_at))

/-- `datetime(2020, 1, 1)`, the far-past default of the push-completed side
of the gate, as a Unix timestamp. -/
def datetime_2020_01_01 : Timestamp := 1577836800

/-- `SELECT MAX(created_at) FROM sync_logs WHERE action =
'sync_to_mailchimp_completed' AND status = 'success'`, defaulted to
`datetime(2020, 1, 1)` when no such row exists
(`sync_db_to_mailchimp.py` 49-58). -/
def lastMailchimpUpload (log : List LogEntry) : Timestamp :=
  (maxTS ((log.filter (fun e =>
    e.action == "sync_to_mailchimp_completed" ∧ e.status == "success")).map
      (fun e => e.created_at))).getD datetime_2020_01_01

/-- The SQL equality `c.email = sl.email`: true only when both sides are
non-NULL and equal. -/
def sqlEmailEq : Option String → Option String → Bool
  | some a, some b => a == b
  | _, _ => false

/-- The `WHERE` clause of Pass C's main query
(`sync_db_to_mailchimp.py` 85-122): the client row is opted in, active, has
a non-NULL email, and joins (`c.email = sl.email`) to some
`sync_pabau_client` success log row created after `last_mailchimp_upload`. -/
def eligibleClient (log : List LogEntry) (lastUpload : Timestamp)
    (c : ClientRow) : Bool :=
  c.opt_in_email == 1 ∧ c.is_active == 1 ∧ c.email.isSome ∧
  log.any (fun e =>
    e.action == "sync_pabau_client" ∧ e.status == "success" ∧
    decide (lastUpload < e.created_at) ∧ sqlEmailEq c.email e.email)

/-- Insertion step of an ascending-by-`id` sort. -/
def insertById (c : ClientRow) : List ClientRow → List ClientRow
  | [] => [c]
  | d :: ds => if c.id ≤ d.id then c :: d :: ds else d :: insertById c ds

/-- Ascending insertion sort by `id`, realising the query's
`ORDER BY c.id`.  (`DISTINCT ON (c.id)` collapses the join to one row per
client; filtering the clients table, whose `id` is its primary key, already
yields one row per client.) -/
def sortByIdAsc (l : List ClientRow) : List ClientRow :=
  l.foldr insertById []

/-- The rows Pass C's main query returns, in query order. -/
def clientsQuery (log : List LogEntry) (clients : List ClientRow)
    (lastUpload : Timestamp) : List ClientRow :=
  sortByIdAsc (clients.filter (eligibleClient log lastUpload))

/-- The lower-cased email a row is deduplicated under
(`client['email'].lower()`; the query guarantees the email is non-NULL). -/
def emailKey (c : ClientRow) : String :=
  pyLower (c.email.getD "")

/-- One step of the `email_to_client` dict build
(`sync_db_to_mailchimp.py` 131-139): a new key is appended, an existing key
is overwritten in place only when the incoming row's `id` is strictly
greater.  The association list mirrors a Python dict's insertion order. -/
def dictInsert (m : List (String × ClientRow)) (k : String) (v : ClientRow) :
    List (String × ClientRow) :=
  if m.any (fun p => p.1 == k) then
    m.map (fun p => if p.1 == k ∧ v.id > p.2.id then (k, v) else p)
  else m ++ [(k, v)]

/-- The deduplication stage: fold the query rows into the dict and take its
values (`unique_clients = list(email_to_client.values())`). -/
def dedupByEmail (rows : List ClientRow) : List ClientRow :=
  (rows.foldl (fun m c => dictInsert m (emailKey c) c) []).map (fun p => p.2)

/-- The per-row batch-entry build (`sync_db_to_mailchimp.py` 199-214):
`int(client['client_system_id'])` never raises on the integer `pabau_id`
column, and the row is kept exactly when `0 < system_id_val < 2147483647`;
otherwise `continue` drops the whole row.  A kept row contributes its id
unchanged as `MMERGE17`, status `'subscribed'` and the fixed
`'Pabau Clients'` tag. -/
def toMember? (c : ClientRow) : Option Member :=
  if 0 < c.pabau_id ∧ c.pabau_id < 2147483647 then
    some { email_address := c.email.getD "", status := "subscribed",
           system_id := c.pabau_id, tags := ["Pabau Clients"] }
  else none

/-- `members_batch` as built from the deduplicated rows. -/
def buildMembersBatch (unique : List ClientRow) : List Member :=
  unique.filterMap toMember?

/-- `k` iterations of the `range(0, len(members_batch), 500)` slicing loop:
each iteration submits the next 500-element slice. -/
def chunkIter : Nat → List Member → List (List Member)
  | 0, _ => []
  | k + 1, l => l.take 500 :: chunkIter k (l.drop 500)

/-- The `range(0, len(members_batch), 500)` slicing: `range` has
`⌈len / 500⌉` elements, so the list splits into batches of 500, the last one
possibly short. -/
def chunk500 (l : List Member) : List (List Member) :=
  chunkIter ((l.length + 499) / 500) l

/-- Pass C, `sync_to_mailchimp` (`sync_db_to_mailchimp.py` 25-287), returning
the list of member batches submitted — one element per
`mc.batch_subscribe` network call; `[]` means zero sink bulk-upsert calls.
The function's inputs are the persisted log and the `clients` table only:
the SQL never touches the `leads` table (its single join target is
`clients`, its single action filter `'sync_pabau_client'`).  The debug
`COUNT` query and the post-upload logging affect no batch and are omitted. -/
def sync_to_mailchimp (log : List LogEntry) (clients : List ClientRow) :
    List (List Member) :=
  match lastPabauSync log with
  | none => []
  | some lastPull =>
    let lastUpload := lastMailchimpUpload log
    if lastPull ≤ lastUpload then []
    else
      let sel := clientsQuery log clients lastUpload
      if sel.isEmpty then []
      else
        let batch := buildMembersBatch (dedupByEmail sel)
        if batch.isEmpty then [] else chunk500 batch

/-- Modelled from the spec: the "per-entity-type cutoff = the maximum
`created_date` already durably stored for that entity type" that §4.1 claims
Pass B uses.  Stored `created_date` values are read back with the same
parser; this definition exists only to be compared against the code's
`get_last_sync_time`. -/
def specCutoffMaxCreatedDate (strptime : String → Option Timestamp)
    (clients : List ClientRow) : Option Timestamp :=
  maxTS (clients.filterMap (fun c => c.created_date.bind (fun v =>
    match v with
    | .vStr s => strptime s
    | .vDt t => some t
    | .vOther => none)))

/-- The amended consent mapping for a lead's `opt_in_email_lead` custom-field
value: absent maps to 0; an integer to 1 exactly when it equals 1; a string
that parses as an integer n to 1 exactly when n = 1; any other string to 0
exactly when its lower-casing is `'0'`, `'false'`, `'no'` or `''` — so to 1
for every remaining string, the listed truthy variants included; any other
value to 0. -/
def specAmendedConsent : CFVal → Int
  | .cfNone => 0
  | .cfInt n => if n = 1 then 1 else 0
  | .cfStr s =>
    match pyInt? s with
    | some n => if n = 1 then 1 else 0
    | none => if ["0", "false", "no", ""].contains (pyLower s) then 0 else 1
  | .cfOther => 0

/-- Well-formedness of the `clients` table: the primary key `id` and the
uniquely-indexed upsert key `pabau_id` (required by
`ON CONFLICT (pabau_id)`) are duplicate-free, and the serial counter sits
above every existing id. -/
def ClientTableWF (st : Store) : Prop :=
  (st.clients.map (fun c => c.id)).Nodup ∧
  (st.clients.map (fun c => c.pabau_id)).Nodup ∧
  ∀ c ∈ st.clients, c.id < st.nextClientId

/-- Well-formedness of the `leads` table, as for `ClientTableWF`. -/
def LeadTableWF (st : Store) : Prop :=
  (st.leads.map (fun l => l.id)).Nodup ∧
  (st.leads.map (fun l => l.pabau_id)).Nodup ∧
  ∀ l ∈ st.leads, l.id < st.nextLeadId

/-- Every non-NULL `pabau_last_synced_at` in `clients` is at most `T`. -/
def clientStampsLE (T : Timestamp) (st : Store) : Prop :=
  ∀ c ∈ st.clients, ∀ u, c.pabau_last_synced_at = some u → u ≤ T

/-- Some client row is stamped exactly `T`. -/
def clientHasStamp (T : Timestamp) (st : Store) : Prop :=
  ∃ c ∈ st.clients, c.pabau_last_synced_at = some T

/-- Every non-NULL `pabau_last_synced_at` in `leads` is at most `T`. -/
def leadStampsLE (T : Timestamp) (st : Store) : Prop :=
  ∀ l ∈ st.leads, ∀ u, l.pabau_last_synced_at = some u → u ≤ T

/-- Some lead row is stamped exactly `T`. -/
def leadHasStamp (T : Timestamp) (st : Store) : Prop :=
  ∃ l ∈ st.leads, l.pabau_last_synced_at = some T

/-- Loop invariant of the client sync run at sync time `T`. -/
def BInv (T : Timestamp) (s : PassBState) : Prop :=
  ClientTableWF s.store ∧ clientStampsLE T s.store ∧
  (0 < s.clientsUpdated → clientHasStamp T s.store)

/-- Loop invariant of the lead sync run at sync time `T`. -/
def LInv (T : Timestamp) (s : LeadPassState) : Prop :=
  LeadTableWF s.store ∧ leadStampsLE T s.store ∧
  (0 < s.updatedCount → leadHasStamp T s.store)

/-- Invariant of the `email_to_client` dict build: every entry is keyed by
its row's lower-cased email, holds a processed row of maximal id for that
key, every processed row has an entry for its key, and keys are
duplicate-free. -/
def DInv (processed : List ClientRow) (m : List (String × ClientRow)) : Prop :=
  (∀ p ∈ m, p.1 = emailKey p.2 ∧ p.2 ∈ processed ∧
    ∀ d ∈ processed, emailKey d = p.1 → d.id ≤ p.2.id) ∧
  (∀ d ∈ processed, ∃ p ∈ m, p.1 = emailKey d) ∧
  (m.map Prod.fst).Nodup

/-- A parser on which `datetime.strptime` always raises; used to instantiate
the parser parameter in concrete runs whose records carry no string dates. -/
def strptimeFail : String → Option Timestamp := fun _ => none

/-- A store with empty tables, as on the very first cycle. -/
def emptyStore : Store :=
  { clients := [], leads := [], log := [], nextClientId := 1, nextLeadId := 1,
    now := 1600000000 }

/-- A `sync_logs` row with only the slots the push pass reads. -/
def logRow (action status : String) (email : Option String) (t : Timestamp) :
    LogEntry :=
  { entity_type := none, entity_id := none, pabau_id := none, email := email,
    action := action, status := status, message := none, created_at := t }

/-- A client row with the slots the push pass reads; `created_date`,
`pabau_last_synced_at` and `mailchimp_status` NULL. -/
def mkClient (id : Nat) (pid : Int) (email : Option String)
    (opt act : Int) : ClientRow :=
  { id := id, pabau_id := pid, email := email, opt_in_email := opt,
    opt_in_phone := 0, is_active := act, created_date := none,
    pabau_last_synced_at := none, mailchimp_status := none }

/-- C1: a stored client whose wall-clock sync stamp (500) differs from its
`created_date` (100). -/
def c1Row : ClientRow :=
  { id := 1, pabau_id := 5, email := some "a@x.com", opt_in_email := 1,
    opt_in_phone := 0, is_active := 1, created_date := some (.vDt 100),
    pabau_last_synced_at := some 500, mailchimp_status := none }

def c1Store : Store :=
  { clients := [c1Row], leads := [], log := [], nextClientId := 2,
    nextLeadId := 1, now := 1000 }

/-- C1: first-run source records created at 20 and 10. -/
def c1RawA : RawClient :=
  { details_id := some 101, is_active := some 1, email := some "p@x.com",
    opt_in_email := some 1, opt_in_phone := some 0,
    created_date := some (.vDt 20) }

def c1RawB : RawClient :=
  { details_id := some 102, is_active := some 1, email := some "q@x.com",
    opt_in_email := some 1, opt_in_phone := some 0,
    created_date := some (.vDt 10) }

def c1RawLead : RawLead :=
  { lead_id := some 301, email := some "r@x.com", is_active := some 1,
    created_date := some (.vDt 30), custom_fields := [] }

/-- C2: a log where the lead-side Pass B completed and ingested a lead after
the (defaulted) last push, yet Pass C has nothing to select. -/
def c2LeadLog : List LogEntry :=
  [logRow "sync_pabau_leads_completed" "success" none 1600000000,
   logRow "sync_pabau_lead" "success" (some "lead@x.com") 1599999000]

def c2ClientLog : List LogEntry :=
  [logRow "sync_pabau_clients_completed" "success" none 1600000000,
   logRow "sync_pabau_client" "success" (some "c2@x.com") 1599999000]

def c2Row : ClientRow := mkClient 1 42 (some "c2@x.com") 1 1

def c2Member : Member :=
  { email_address := "c2@x.com", status := "subscribed", system_id := 42,
    tags := ["Pabau Clients"] }

/-- C3: a stored contact with a lower-case email and consent on. -/
def c3Row : ClientRow := mkClient 1 5 (some "foo@bar.com") 1 1

def c3Store : Store :=
  { clients := [c3Row], leads := [], log := [], nextClientId := 2,
    nextLeadId := 1, now := 1000 }

def c3wRow : ClientRow := mkClient 1 6 (some "w@bar.com") 1 1

def c3wStore : Store :=
  { clients := [c3wRow], leads := [], log := [], nextClientId := 2,
    nextLeadId := 1, now := 1000 }

/-- C4: a log whose last Pass-B completion (t = 1600000000) is at-or-before
the last push completion (t = 1600000500), over a client that would
otherwise be pushed. -/
def c4Log : List LogEntry :=
  [logRow "sync_pabau_clients_completed" "success" none 1600000000,
   logRow "sync_pabau_client" "success" (some "c4@x.com") 1599999000,
   logRow "sync_to_mailchimp_completed" "success" none 1600000500]

def c4Row : ClientRow := mkClient 1 7 (some "c4@x.com") 1 1

/-- C5: two single-record source pages — page 1 is short (1 < 50) but not
empty. -/
def c5RawA : RawClient :=
  { details_id := some 501, is_active := some 1, email := some "a5@x.com",
    opt_in_email := some 0, opt_in_phone := some 0, created_date := none }

def c5RawB : RawClient :=
  { details_id := some 502, is_active := some 1, email := some "b5@x.com",
    opt_in_email := some 0, opt_in_phone := some 0, created_date := none }

/-- C6: a push-pass log selecting the single stored client. -/
def c6Log : List LogEntry :=
  [logRow "sync_pabau_clients_completed" "success" none 1600000000,
   logRow "sync_pabau_client" "success" (some "c6@x.com") 1599999000]

/-- C6: an eligible client whose system id 2147483647 = 2^31 - 1 lies inside
the signed-32-bit range. -/
def c6RowEdge : ClientRow := mkClient 1 2147483647 (some "c6@x.com") 1 1

/-- C6: the same client with an ordinary system id. -/
def c6RowOk : ClientRow := mkClient 1 5 (some "c6@x.com") 1 1

def c6MemberOk : Member :=
  { email_address := "c6@x.com", status := "subscribed", system_id := 5,
    tags := ["Pabau Clients"] }

/-- C7: two eligible contacts sharing an email; the higher-id row carries an
out-of-range system id. -/
def c7Log : List LogEntry :=
  [logRow "sync_pabau_clients_completed" "success" none 1600000000,
   logRow "sync_pabau_client" "success" (some "dup@x.com") 1599999000]

def c7Row7 : ClientRow := mkClient 7 7 (some "dup@x.com") 1 1

def c7Row12 : ClientRow := mkClient 12 9999999999 (some "dup@x.com") 1 1

/-- C7 witness rows: ids 7 and 12, both with in-range system ids. -/
def c7wRow7 : ClientRow := mkClient 7 7 (some "dup@x.com") 1 1

def c7wRow12 : ClientRow := mkClient 12 12 (some "dup@x.com") 1 1

/-- C8: a lead payload whose consent custom field holds an arbitrary
non-truthy, non-falsy-listed string. -/
def c8RawBanana : RawLead :=
  { lead_id := some 801, email := some "c8@x.com", is_active := some 1,
    created_date := none,
    custom_fields := [.fld "opt_in_email_lead" (.cfStr "banana")] }

/-- C9: one page of three contacts — two with an email, one without. -/
def c9Raw1 : RawClient :=
  { details_id := some 201, is_active := some 1, email := some "a9@x.com",
    opt_in_email := some 1, opt_in_phone := some 0,
    created_date := some (.vDt 10) }

def c9Raw2 : RawClient :=
  { details_id := some 202, is_active := some 1, email := some "b9@x.com",
    opt_in_email := some 1, opt_in_phone := some 0,
    created_date := some (.vDt 20) }

def c9Raw3 : RawClient :=
  { details_id := some 203, is_active := some 1, email := none,
    opt_in_email := some 1, opt_in_phone := some 0,
    created_date := some (.vDt 30) }

/-- C10 witness fixtures: loop states over the empty store and records whose
`created_date` is absent. -/
def c10S : PassBState :=
  { store := emptyStore, clientsUpdated := 0, skippedOld := 0,
    skippedNoEmail := 0 }

def c10SL : LeadPassState :=
  { store := emptyStore, updatedCount := 0, skippedOld := 0,
    skippedNoEmail := 0 }

def c10RawC : RawClient :=
  { details_id := some 601, is_active := some 1, email := some "c10@x.com",
    opt_in_email := some 1, opt_in_phone := some 0, created_date := none }

def c10RawL : RawLead :=
  { lead_id := some 602, email := some "d10@x.com", is_active := some 1,
    created_date := none, custom_fields := [] }

theorem maxTS_eq_none {l : List Timestamp} : maxTS l = none ↔ l = [] := by
  cases l with
  | nil => simp [maxTS]
  | cons t ts =>
    simp only [maxTS]
    cases maxTS ts <;> simp

theorem maxTS_mem {l : List Timestamp} {m : Timestamp} (h : maxTS l = some m) :
    m ∈ l := by
  induction l with
  | nil => simp [maxTS] at h
  | cons t ts ih =>
    simp only [maxTS] at h
    cases hts : maxTS ts with
    | none =>
      rw [hts] at h
      simp only [Option.some.injEq] at h
      subst h
      exact List.mem_cons_self _ _
    | some m' =>
      rw [hts] at h
      simp only [Option.some.injEq] at h
      rcases max_choice t m' with hc | hc
      · rw [hc] at h; subst h; exact List.mem_cons_self _ _
      · rw [hc] at h; subst h; exact List.mem_cons_of_mem _ (ih hts)

theorem maxTS_le {l : List Timestamp} :
    ∀ {m : Timestamp}, maxTS l = some m → ∀ u ∈ l, u ≤ m := by
  induction l with
  | nil => intro m h; simp [maxTS] at h
  | cons t ts ih =>
    intro m h
    simp only [maxTS] at h
    cases hts : maxTS ts with
    | none =>
      rw [hts] at h
      simp only [Option.some.injEq] at h
      have hnil : ts = [] := maxTS_eq_none.mp hts
      subst hnil; subst h; simp
    | some m' =>
      rw [hts] at h
      simp only [Option.some.injEq] at h
      subst h
      intro u hu
      rcases List.mem_cons.mp hu with rfl | hu'
      · exact le_max_left _ _
      · exact le_trans (ih hts u hu') (le_max_right _ _)

theorem maxTS_eq_of_le_of_mem {l : List Timestamp} {T : Timestamp}
    (hle : ∀ u ∈ l, u ≤ T) (hm : T ∈ l) : maxTS l = some T := by
  cases h : maxTS l with
  | none =>
    rw [maxTS_eq_none.mp h] at hm
    simp at hm
  | some m =>
    have h1 : m = T := le_antisymm (hle m (maxTS_mem h)) (maxTS_le h T hm)
    rw [h1]

theorem foldl_invariant {σ α : Type} {P : σ → Prop} (step : σ → α → σ)
    (hstep : ∀ s a, P s → P (step s a)) :
    ∀ (l : List α) (s : σ), P s → P (l.foldl step s) := by
  intro l
  induction l with
  | nil => intro s h; exact h
  | cons a as ih => intro s h; exact ih _ (hstep s a h)

theorem runPages_invariant {σ α : Type} {P : σ → Prop} (step : σ → α → σ)
    (hstep : ∀ s a, P s → P (step s a)) :
    ∀ (pages : List (List α)) (s : σ), P s → P (runPages step pages s).1 := by
  intro pages
  induction pages with
  | nil => intro s h; exact h
  | cons p rest ih =>
    intro s h
    simp only [runPages]
    by_cases hp : p.isEmpty = true
    · rw [if_pos hp]; exact h
    · rw [if_neg hp]
      exact ih _ (foldl_invariant step hstep p s h)

theorem runPages_count {σ α : Type} (step : σ → α → σ) :
    ∀ (pages : List (List α)) (s : σ),
      (runPages step pages s).2
        = (pages.takeWhile (fun p => !p.isEmpty)).length + 1 := by
  intro pages
  induction pages with
  | nil => intro s; rfl
  | cons p rest ih =>
    intro s
    simp only [runPages, List.takeWhile_cons]
    by_cases hp : p.isEmpty = true
    · rw [if_pos hp]; simp [hp]
    · rw [if_neg hp]
      have hp' : p.isEmpty = false := by
        cases hpe : p.isEmpty
        · rfl
        · exact absurd hpe hp
      simp [hp', ih]

/-- C2 (code bug): Pass C never pushes leads.  With a log recording a
completed lead pull (`sync_pabau_leads_completed`) and a successfully synced
lead after the (defaulted) last push, `sync_to_mailchimp` performs zero sink
calls — its SQL joins only the `clients` table and selects only
`sync_pabau_client` log rows, as the model's input signature shows, although
the script's own docstring promises clients *and* leads tagged
`'Pabau Clients'` / `'Pabau Leads'`.  On the client side of the same
situation the one produced batch entry is tagged `'Pabau Clients'`. -/
theorem c2_leads_never_pushed :
    sync_to_mailchimp c2LeadLog [] = [] ∧
    sync_to_mailchimp c2ClientLog [c2Row] = [[c2Member]] ∧
    c2Member.tags = ["Pabau Clients"] := by decide

/-- C4 (confirmed): when the most recent Pass-B terminal success row is
at-or-before the most recent Pass-C terminal success row — the latter
defaulting to `datetime(2020, 1, 1)` when absent, the former absent making
the hypothesis vacuous over naturals — `sync_to_mailchimp` performs zero
sink bulk-upsert calls.  Both sides of the comparison are computed from the
persisted log alone. -/
theorem c4_push_gating (log : List LogEntry) (clients : List ClientRow)
    (h : (lastPabauSync log).getD 0 ≤ lastMailchimpUpload log) :
    sync_to_mailchimp log clients = [] := by
  cases hl : lastPabauSync log with
  | none => simp [sync_to_mailchimp, hl]
  | some t =>
    rw [hl, Option.getD_some] at h
    simp [sync_to_mailchimp, hl, h]

theorem c4_witness : sync_to_mailchimp c4Log [c4Row] = [] :=
  c4_push_gating c4Log [c4Row] (by decide)

/-- C5 (counterexample): page 1 of this source holds one record — fewer than
the requested page size 50 — yet the run makes three fetches (pages 1, 2 and
the empty page 3) and ingests page 2's record, where the claim predicts the
loop stops after the short page 1 without requesting a further page. -/
theorem c5_counterexample :
    (sync_pabau_clients strptimeFail [[c5RawA], [c5RawB]] emptyStore
      100).pagesFetched = 3 ∧
    (sync_pabau_clients strptimeFail [[c5RawA], [c5RawB]] emptyStore
      100).state.clientsUpdated = 2 ∧
    [c5RawA].length < 50 := by decide

/-- C5 (amended): both Pass-B page loops terminate exactly at the first
*empty* response: the number of fetches equals the number of leading
non-empty responses plus one, so a short non-empty page always leads to a
further request. -/
theorem c5_empty_page_terminates (strptime : String → Option Timestamp)
    (pagesC : List (List RawClient)) (pagesL : List (List RawLead))
    (st0 st1 : Store) (tC tL : Timestamp) :
    (sync_pabau_clients strptime pagesC st0 tC).pagesFetched
      = (pagesC.takeWhile (fun p => !p.isEmpty)).length + 1 ∧
    (sync_pabau_leads strptime pagesL st1 tL).pagesFetched
      = (pagesL.takeWhile (fun p => !p.isEmpty)).length + 1 := by
  constructor
  · exact runPages_count
      (processClient strptime (get_last_sync_time st0.clients) tC) pagesC _
  · exact runPages_count
      (processLead strptime (get_last_sync_time_leads st1.leads) tL) pagesL _

/-- C6 (counterexample): the system id 2147483647 = 2^31 - 1 lies inside the
signed-32-bit range, yet the otherwise fully eligible record is excluded
from the push batch (the check is the strict `0 < id < 2147483647`); the
same record with an ordinary system id is pushed. -/
theorem c6_counterexample :
    (-(2 ^ 31) : Int) ≤ c6RowEdge.pabau_id ∧
    c6RowEdge.pabau_id ≤ 2 ^ 31 - 1 ∧
    sync_to_mailchimp c6Log [c6RowEdge] = [] ∧
    sync_to_mailchimp c6Log [c6RowOk] = [[c6MemberOk]] := by decide

/-- C6 (amended): a row survives the system-id check exactly when
`0 < pabau_id < 2147483647` — so every id outside the signed-32-bit range
(9,999,999,999 included) is dropped whole, never truncated (a kept entry
carries the id unchanged), but in-range ids ≤ 0 or = 2147483647 are dropped
too. -/
theorem c6_system_id_range (c : ClientRow) :
    (toMember? c = none ↔ (c.pabau_id ≤ 0 ∨ 2147483647 ≤ c.pabau_id)) ∧
    ∀ m, toMember? c = some m →
      m.system_id = c.pabau_id ∧ m.email_address = c.email.getD "" ∧
      0 < c.pabau_id ∧ c.pabau_id < 2147483647 := by
  unfold toMember?
  by_cases h : 0 < c.pabau_id ∧ c.pabau_id < 2147483647
  · rw [if_pos h]
    constructor
    · constructor
      · intro hc; exact absurd hc (by simp)
      · intro hc; omega
    · intro m hm
      injection hm with hm'
      subst hm'
      exact ⟨rfl, rfl, h.1, h.2⟩
  · rw [if_neg h]
    constructor
    · constructor
      · intro _; omega
      · intro _; rfl
    · intro m hm; exact absurd hm (by simp)

theorem c6_witness :
    c6MemberOk.system_id = c6RowOk.pabau_id ∧
    c6MemberOk.email_address = c6RowOk.email.getD "" ∧
    0 < c6RowOk.pabau_id ∧ c6RowOk.pabau_id < 2147483647 :=
  (c6_system_id_range c6RowOk).2 c6MemberOk (by decide)

/-- C8 (counterexample): the custom-field value `"banana"` — a non-empty
string outside the claim's truthy set — yields consent 1, not the claimed
default-closed 0: `extract_custom_field` maps every string that fails
`int()` and is not in `['0', 'false', 'no', '']` to 1. -/
theorem c8_counterexample :
    (transform_lead_for_db c8RawBanana).opt_in_email_mailchimp = 1 ∧
    leadConsent [.fld "opt_in_email_lead" (.cfStr "banana")] = 1 ∧
    (1 : Int) ≠ 0 := by decide

/-- C8 (amended): the consent derived from the first `opt_in_email_lead`
field equals `specAmendedConsent` of its value — absent 0; integer 1 iff it
equals 1; a string parsing as integer n 1 iff n = 1; any other string 0 iff
its lower-casing is `'0'`, `'false'`, `'no'` or `''` and 1 otherwise (the
claim's truthy variants included); any other value 0. -/
theorem c8_consent_cases (fields : List CFEntry) :
    leadConsent fields
      = specAmendedConsent
          ((findField fields "opt_in_email_lead").getD .cfNone) := by
  have hnil : fields.isEmpty = true → fields = [] := by
    cases fields <;> simp
  by_cases he : fields.isEmpty = true
  · rw [hnil he]; rfl
  · cases hf : findField fields "opt_in_email_lead" with
    | none =>
      simp [leadConsent, extract_custom_field, he, hf, specAmendedConsent]
    | some v =>
      cases v with
      | cfNone =>
        simp [leadConsent, extract_custom_field, he, hf, specAmendedConsent]
      | cfInt n =>
        simp [leadConsent, extract_custom_field, he, hf, specAmendedConsent]
      | cfOther =>
        simp [leadConsent, extract_custom_field, he, hf, specAmendedConsent]
      | cfStr s =>
        cases hp : pyInt? s with
        | some n =>
          simp [leadConsent, extract_custom_field, he, hf, hp,
            specAmendedConsent]
        | none =>
          simp [leadConsent, extract_custom_field, he, hf, hp,
            specAmendedConsent]
          by_cases hP : pyLower s = "0" ∨ pyLower s = "false" ∨
              pyLower s = "no" ∨ pyLower s = ""
          · simp [hP]
          · simp [hP]

/-- C9 (counterexample): the first-ever run over one page of three contacts
(two with an email, one without) stores exactly 2 rows but writes **zero**
log rows with status `'skipped'` — the email-less record only bumps the
in-memory `skipped_no_email` counter — where the claim predicts one such
row. -/
theorem c9_counterexample :
    (sync_pabau_clients strptimeFail [[c9Raw1, c9Raw2, c9Raw3]] emptyStore
      700).state.store.clients.length = 2 ∧
    ((sync_pabau_clients strptimeFail [[c9Raw1, c9Raw2, c9Raw3]] emptyStore
      700).state.store.log.filter (fun e => e.status == "skipped")).length
      = 0 ∧
    (0 : Nat) ≠ 1 := by decide

/-- C9 (amended): on the first-ever cycle over one page of 3 contacts (2
with email, 1 without), the store ends with exactly 2 client rows, the
`skipped_no_email` counter reads 1, no `'skipped'` log row exists, and the
log holds exactly the 2 per-record success rows plus the one terminal
completed row. -/
theorem c9_first_run_scenario :
    (sync_pabau_clients strptimeFail [[c9Raw1, c9Raw2, c9Raw3]] emptyStore
      700).state.store.clients.length = 2 ∧
    (sync_pabau_clients strptimeFail [[c9Raw1, c9Raw2, c9Raw3]] emptyStore
      700).state.skippedNoEmail = 1 ∧
    ((sync_pabau_clients strptimeFail [[c9Raw1, c9Raw2, c9Raw3]] emptyStore
      700).state.store.log.filter (fun e => e.status == "skipped")).length
      = 0 ∧
    ((sync_pabau_clients strptimeFail [[c9Raw1, c9Raw2, c9Raw3]] emptyStore
      700).state.store.log.filter (fun e =>
        e.action == "sync_pabau_client" ∧ e.status == "success")).length
      = 2 ∧
    ((sync_pabau_clients strptimeFail [[c9Raw1, c9Raw2, c9Raw3]] emptyStore
      700).state.store.log.filter (fun e =>
        e.action == "sync_pabau_clients_completed")).length = 1 := by decide

theorem createdDatePasses_unparseable (strptime : String → Option Timestamp)
    (cut : Timestamp) (cd : Option DateVal)
    (h : cd = none ∨ cd = some .vOther ∨
      ∃ str, cd = some (.vStr str) ∧ strptime str = none) :
    createdDatePasses strptime (some cut) cd = false := by
  rcases h with rfl | rfl | ⟨str, rfl, hp⟩
  · rfl
  · rfl
  · by_cases hs : (str == "") = true
    · simp [createdDatePasses, DateVal.isFalsy, hs]
    · simp [createdDatePasses, DateVal.isFalsy, hs, hp]

/-- C10 (confirmed): with a cutoff in force, both Pass-B loops skip — one
`skipped_old` bump, no upsert, no log row of any status — every record that
has an email but whose `created_date` is absent, is of some type other than
string or datetime, or is a string on which `strptime` raises; this holds
for every parser, however new the record actually is. -/
theorem c10_unparseable_created_skipped
    (strptime : String → Option Timestamp) (cut syncTime : Timestamp)
    (s : PassBState) (sl : LeadPassState) (rawC : RawClient) (rawL : RawLead)
    (hCemail : optStrFalsy rawC.email = false)
    (hC : rawC.created_date = none ∨ rawC.created_date = some .vOther ∨
      ∃ str, rawC.created_date = some (.vStr str) ∧ strptime str = none)
    (hLemail : optStrFalsy rawL.email = false)
    (hL : rawL.created_date = none ∨ rawL.created_date = some .vOther ∨
      ∃ str, rawL.created_date = some (.vStr str) ∧ strptime str = none) :
    processClient strptime (some cut) syncTime s rawC
        = { s with skippedOld := s.skippedOld + 1 } ∧
    processLead strptime (some cut) syncTime sl rawL
        = { sl with skippedOld := sl.skippedOld + 1 } := by
  have hpc : createdDatePasses strptime (some cut)
      (transform_client_for_db rawC).created_date = false :=
    createdDatePasses_unparseable strptime cut _ hC
  have hpl : createdDatePasses strptime (some cut)
      (transform_lead_for_db rawL).created_date = false :=
    createdDatePasses_unparseable strptime cut _ hL
  have hce : optStrFalsy (transform_client_for_db rawC).email = false := hCemail
  have hle : optStrFalsy (transform_lead_for_db rawL).email = false := hLemail
  constructor
  · simp [processClient, hce, hpc]
  · simp [processLead, hle, hpl]

theorem c10_witness :
    processClient strptimeFail (some 50) 100 c10S c10RawC
        = { c10S with skippedOld := c10S.skippedOld + 1 } ∧
    processLead strptimeFail (some 50) 100 c10SL c10RawL
        = { c10SL with skippedOld := c10SL.skippedOld + 1 } :=
  c10_unparseable_created_skipped strptimeFail 50 100 c10S c10SL c10RawC
    c10RawL (by decide) (Or.inl (by decide)) (by decide) (Or.inl (by decide))

theorem update_clients_emails (st : Store) (e : String) (v : Int) :
    ((update_opt_in_from_mailchimp st e v).1).clients.map (fun c => c.email)
      = st.clients.map (fun c => c.email) := by
  unfold update_opt_in_from_mailchimp
  by_cases h1 : st.clients.any (fun c => c.email == some e) = true
  · rw [if_pos h1]
    simp only [List.map_map]
    apply List.map_congr_left
    intro c _
    by_cases hc : (c.email == some e) = true
    · have heq : c.email = some e := beq_iff_eq.mp hc
      simp [heq]
    · have hne : c.email ≠ some e := fun h => hc (beq_iff_eq.mpr h)
      simp [hne]
  · rw [if_neg h1]
    by_cases h2 : st.leads.any (fun l => l.email == some e) = true
    · rw [if_pos h2]
    · rw [if_neg h2]

theorem update_sets_zero (st : Store) (e : String) :
    ∀ c ∈ ((update_opt_in_from_mailchimp st e 0).1).clients,
      c.email = some e → c.opt_in_email = 0 := by
  unfold update_opt_in_from_mailchimp
  by_cases h1 : st.clients.any (fun c => c.email == some e) = true
  · rw [if_pos h1]
    intro c hc hce
    simp only at hc
    rcases List.mem_map.mp hc with ⟨c0, hc0, hfc⟩
    subst hfc
    by_cases h0 : (c0.email == some e) = true
    · simp [h0]
    · rw [if_neg h0] at hce ⊢
      exact absurd (beq_iff_eq.mpr hce) h0
  · rw [if_neg h1]
    by_cases h2 : st.leads.any (fun l => l.email == some e) = true
    · rw [if_pos h2]
      intro c hc hce
      have hc' : c ∈ st.clients := hc
      exact absurd (h1 (List.any_eq_true.mpr ⟨c, hc', beq_iff_eq.mpr hce⟩))
        not_false
    · rw [if_neg h2]
      intro c hc hce
      have hc' : c ∈ st.clients := hc
      exact absurd (h1 (List.any_eq_true.mpr ⟨c, hc', beq_iff_eq.mpr hce⟩))
        not_false

theorem update_keeps_zero (st : Store) (e' target : String)
    (h : ∀ c ∈ st.clients, c.email = some target → c.opt_in_email = 0) :
    ∀ c ∈ ((update_opt_in_from_mailchimp st e' 0).1).clients,
      c.email = some target → c.opt_in_email = 0 := by
  unfold update_opt_in_from_mailchimp
  by_cases h1 : st.clients.any (fun c => c.email == some e') = true
  · rw [if_pos h1]
    intro c hc hce
    simp only at hc
    rcases List.mem_map.mp hc with ⟨c0, hc0, hfc⟩
    subst hfc
    by_cases h0 : (c0.email == some e') = true
    · simp [h0]
    · rw [if_neg h0] at hce ⊢
      exact h c0 hc0 hce
  · rw [if_neg h1]
    by_cases h2 : st.leads.any (fun l => l.email == some e') = true
    · rw [if_pos h2]; exact h
    · rw [if_neg h2]; exact h

theorem update_leads_of_match (st : Store) (e : String) (v : Int)
    (h : ∃ c ∈ st.clients, c.email = some e) :
    ((update_opt_in_from_mailchimp st e v).1).leads = st.leads ∧
    (update_opt_in_from_mailchimp st e v).2 = some "client" := by
  have h1 : st.clients.any (fun c => c.email == some e) = true := by
    rcases h with ⟨c, hc, hce⟩
    exact List.any_eq_true.mpr ⟨c, hc, beq_iff_eq.mpr hce⟩
  unfold update_opt_in_from_mailchimp
  rw [if_pos h1]
  exact ⟨rfl, rfl⟩

theorem update_keeps_matches (st : Store) (e' : String) (v : Int) (e : String)
    (h : ∃ c ∈ st.clients, c.email = some e) :
    ∃ c ∈ ((update_opt_in_from_mailchimp st e' v).1).clients,
      c.email = some e := by
  have hm := update_clients_emails st e' v
  rcases h with ⟨c, hc, hce⟩
  have hmem : some e ∈ st.clients.map (fun c => c.email) :=
    List.mem_map.mpr ⟨c, hc, hce⟩
  rw [← hm] at hmem
  rcases List.mem_map.mp hmem with ⟨c', hc', hce'⟩
  exact ⟨c', hc', hce'⟩

theorem fetchStep_clients (s : Store) (a : String) :
    (fetch_unsubscribes s [a]).clients
      = ((update_opt_in_from_mailchimp s a 0).1).clients := by
  unfold fetch_unsubscribes
  simp only [List.foldl]
  cases h : (update_opt_in_from_mailchimp s a 0).2 <;> simp [h, Store.logSync]

theorem fetchStep_leads (s : Store) (a : String) :
    (fetch_unsubscribes s [a]).leads
      = ((update_opt_in_from_mailchimp s a 0).1).leads := by
  unfold fetch_unsubscribes
  simp only [List.foldl]
  cases h : (update_opt_in_from_mailchimp s a 0).2 <;> simp [h, Store.logSync]

theorem fetch_cons (st : Store) (m : String) (rest : List String) :
    fetch_unsubscribes st (m :: rest)
      = fetch_unsubscribes (fetch_unsubscribes st [m]) rest := rfl

theorem fetch_sets_zero (st : Store) (members : List String) (e : String)
    (he : e ∈ members) :
    ∀ c ∈ (fetch_unsubscribes st members).clients,
      c.email = some e → c.opt_in_email = 0 := by
  induction members generalizing st with
  | nil => simp at he
  | cons m rest ih =>
    rw [fetch_cons]
    rcases List.mem_cons.mp he with rfl | he'
    · have h0 : ∀ c ∈ (fetch_unsubscribes st [e]).clients,
          c.email = some e → c.opt_in_email = 0 := by
        rw [fetchStep_clients]
        exact update_sets_zero st e
      have hpres : ∀ (s : Store) (a : String),
          (∀ c ∈ s.clients, c.email = some e → c.opt_in_email = 0) →
          ∀ c ∈ (fetch_unsubscribes s [a]).clients,
            c.email = some e → c.opt_in_email = 0 := by
        intro s a hs
        rw [fetchStep_clients]
        exact update_keeps_zero s a e hs
      exact foldl_invariant _ hpres rest (fetch_unsubscribes st [e]) h0
    · exact ih (fetch_unsubscribes st [m]) he'

theorem fetch_leads_unchanged (st : Store) (members : List String)
    (h : ∀ m ∈ members, ∃ c ∈ st.clients, c.email = some m) :
    (fetch_unsubscribes st members).leads = st.leads := by
  induction members generalizing st with
  | nil => rfl
  | cons m rest ih =>
    rw [fetch_cons]
    have hm : ∃ c ∈ st.clients, c.email = some m :=
      h m (List.mem_cons_self m rest)
    have hl1 : (fetch_unsubscribes st [m]).leads = st.leads := by
      rw [fetchStep_leads]
      exact (update_leads_of_match st m 0 hm).1
    have h1 : ∀ m' ∈ rest,
        ∃ c ∈ (fetch_unsubscribes st [m]).clients, c.email = some m' := by
      intro m' hm'
      rw [fetchStep_clients]
      exact update_keeps_matches st m 0 m' (h m' (List.mem_cons_of_mem _ hm'))
    rw [ih _ h1, hl1]

/-- C3 (counterexample): Pass A given the unsubscribed list
`["Foo@Bar.com"]` over a store holding the Contact `foo@bar.com` with
`opt_in_email = 1` leaves the store completely unchanged — the SQL
`WHERE email = %s` match is exact, so the case-differing email matches
nothing and the Contact's flag stays 1, where the claim says it becomes 0. -/
theorem c3_counterexample :
    fetch_unsubscribes c3Store ["Foo@Bar.com"] = c3Store ∧
    c3Row.email = some "foo@bar.com" ∧ c3Row.opt_in_email = 1 ∧
    (fetch_unsubscribes c3Store ["Foo@Bar.com"]).clients.map
      (fun c => c.opt_in_email) = [1] := by decide

/-- C3 (amended): the unsubscribe match is exact (case-sensitive) string
equality.  For every unsubscribed member email `e` in the list, every stored
Contact whose email equals `e` exactly ends the pass with
`opt_in_email = 0`; and when every member email exactly matches some stored
Contact, no Lead row is modified. -/
theorem c3_exact_match_unsubscribe (st : Store) (members : List String)
    (e : String) (he : e ∈ members) :
    (∀ c ∈ (fetch_unsubscribes st members).clients,
      c.email = some e → c.opt_in_email = 0) ∧
    ((∀ m ∈ members, ∃ c ∈ st.clients, c.email = some m) →
      (fetch_unsubscribes st members).leads = st.leads) :=
  ⟨fetch_sets_zero st members e he,
   fun h => fetch_leads_unchanged st members h⟩

theorem c3_witness :
    (fetch_unsubscribes c3wStore ["w@bar.com"]).leads = c3wStore.leads :=
  (c3_exact_match_unsubscribe c3wStore ["w@bar.com"] "w@bar.com"
    (by decide)).2 (by decide)

theorem dictInsert_DInv (processed : List ClientRow)
    (m : List (String × ClientRow)) (c : ClientRow) (h : DInv processed m) :
    DInv (processed ++ [c]) (dictInsert m (emailKey c) c) := by
  obtain ⟨h1, h2, h3⟩ := h
  unfold dictInsert
  by_cases hmem : (m.any (fun p => p.1 == emailKey c)) = true
  · rw [if_pos hmem]
    refine ⟨?_, ?_, ?_⟩
    · intro p' hp'
      rcases List.mem_map.mp hp' with ⟨p, hp, hfp⟩
      by_cases hcond : p.1 == emailKey c ∧ c.id > p.2.id
      · rw [if_pos hcond] at hfp
        subst hfp
        refine ⟨rfl, List.mem_append_right _ (by simp), ?_⟩
        intro d hd hkd
        rcases List.mem_append.mp hd with hd' | hd'
        · show d.id ≤ c.id
          have hp1 : p.1 = emailKey c := beq_iff_eq.mp hcond.1
          have hb := (h1 p hp).2.2 d hd' (by rw [hkd]; exact hp1.symm)
          have hlt := hcond.2
          omega
        · show d.id ≤ c.id
          have hdc : d = c := List.mem_singleton.mp hd'
          rw [hdc]
      · rw [if_neg hcond] at hfp
        subst hfp
        obtain ⟨hk, hmem', hb⟩ := h1 p hp
        refine ⟨hk, List.mem_append_left _ hmem', ?_⟩
        intro d hd hkd
        rcases List.mem_append.mp hd with hd' | hd'
        · exact hb d hd' hkd
        · have hdc : d = c := List.mem_singleton.mp hd'
          by_cases hpk : (p.1 == emailKey c) = true
          · have hngt : ¬ c.id > p.2.id := fun hgt => hcond ⟨hpk, hgt⟩
            rw [hdc]
            omega
          · have hkc : emailKey c = p.1 := by rw [← hdc]; exact hkd
            exact absurd (beq_iff_eq.mpr hkc.symm) hpk
    · intro d hd
      rcases List.mem_append.mp hd with hd' | hd'
      · obtain ⟨p, hp, hpk⟩ := h2 d hd'
        refine ⟨if p.1 == emailKey c ∧ c.id > p.2.id then (emailKey c, c)
          else p, List.mem_map.mpr ⟨p, hp, rfl⟩, ?_⟩
        by_cases hcond : p.1 == emailKey c ∧ c.id > p.2.id
        · rw [if_pos hcond]
          have hp1 : p.1 = emailKey c := beq_iff_eq.mp hcond.1
          rw [← hp1]
          exact hpk
        · rw [if_neg hcond]
          exact hpk
      · have hdc : d = c := List.mem_singleton.mp hd'
        rw [hdc]
        obtain ⟨p0, hp0, hp0k⟩ := List.any_eq_true.mp hmem
        refine ⟨if p0.1 == emailKey c ∧ c.id > p0.2.id then (emailKey c, c)
          else p0, List.mem_map.mpr ⟨p0, hp0, rfl⟩, ?_⟩
        by_cases hcond : p0.1 == emailKey c ∧ c.id > p0.2.id
        · rw [if_pos hcond]
        · rw [if_neg hcond]
          exact beq_iff_eq.mp hp0k
    · have hfst : (m.map (fun p =>
          if p.1 == emailKey c ∧ c.id > p.2.id then (emailKey c, c)
          else p)).map Prod.fst = m.map Prod.fst := by
        rw [List.map_map]
        apply List.map_congr_left
        intro p hp
        by_cases hcond : p.1 == emailKey c ∧ c.id > p.2.id
        · show Prod.fst (if p.1 == emailKey c ∧ c.id > p.2.id
            then (emailKey c, c) else p) = p.1
          rw [if_pos hcond]
          exact (beq_iff_eq.mp hcond.1).symm
        · show Prod.fst (if p.1 == emailKey c ∧ c.id > p.2.id
            then (emailKey c, c) else p) = p.1
          rw [if_neg hcond]
      rw [hfst]
      exact h3
  · rw [if_neg hmem]
    have hnot : ∀ p ∈ m, p.1 ≠ emailKey c := by
      intro p hp heq
      exact hmem (List.any_eq_true.mpr ⟨p, hp, beq_iff_eq.mpr heq⟩)
    refine ⟨?_, ?_, ?_⟩
    · intro p' hp'
      rcases List.mem_append.mp hp' with hp | hp
      · obtain ⟨hk, hmem', hb⟩ := h1 p' hp
        refine ⟨hk, List.mem_append_left _ hmem', ?_⟩
        intro d hd hkd
        rcases List.mem_append.mp hd with hd' | hd'
        · exact hb d hd' hkd
        · have hdc : d = c := List.mem_singleton.mp hd'
          subst hdc
          exact absurd hkd.symm (hnot p' hp)
      · have hpc : p' = (emailKey c, c) := List.mem_singleton.mp hp
        subst hpc
        refine ⟨rfl, List.mem_append_right _ (by simp), ?_⟩
        intro d hd hkd
        rcases List.mem_append.mp hd with hd' | hd'
        · obtain ⟨p, hp2, hpk⟩ := h2 d hd'
          have hkd' : emailKey d = emailKey c := hkd
          exact absurd (hpk.trans hkd') (hnot p hp2)
        · show d.id ≤ c.id
          have hdc : d = c := List.mem_singleton.mp hd'
          rw [hdc]
    · intro d hd
      rcases List.mem_append.mp hd with hd' | hd'
      · obtain ⟨p, hp, hpk⟩ := h2 d hd'
        exact ⟨p, List.mem_append_left _ hp, hpk⟩
      · have hdc : d = c := List.mem_singleton.mp hd'
        rw [hdc]
        exact ⟨(emailKey c, c), List.mem_append_right _ (by simp), rfl⟩
    · rw [List.map_append, List.nodup_append]
      refine ⟨h3, by simp, ?_⟩
      intro x hx hx'
      rcases List.mem_map.mp hx with ⟨p, hp, hpx⟩
      have hxc : x = emailKey c := by simpa using hx'
      exact hnot p hp (by rw [hpx, hxc])

theorem dedup_fold_DInv (l : List ClientRow) :
    ∀ (processed : List ClientRow) (m : List (String × ClientRow)),
      DInv processed m →
      DInv (processed ++ l)
        (l.foldl (fun m c => dictInsert m (emailKey c) c) m) := by
  induction l with
  | nil =>
    intro processed m h
    simpa using h
  | cons c cs ih =>
    intro processed m h
    have h1 := dictInsert_DInv processed m c h
    have h2 := ih (processed ++ [c]) _ h1
    simpa [List.append_assoc] using h2

/-- C7 (counterexample): two Contact rows share the email `dup@x.com`; both
are opted in, active and selected by the query, but the higher-id row (id
12) carries the out-of-range system id 9,999,999,999, so after
dedup-keeps-highest-id the range check drops it and Pass C pushes **no**
entry at all for that email — the claim promises exactly one entry (the
id-12 row), and under a reading where eligibility includes the range check
it promises the id-7 row, which is also absent. -/
theorem c7_counterexample :
    eligibleClient c7Log (lastMailchimpUpload c7Log) c7Row7 = true ∧
    eligibleClient c7Log (lastMailchimpUpload c7Log) c7Row12 = true ∧
    c7Row7.email = c7Row12.email ∧ c7Row7.id = 7 ∧ c7Row12.id = 12 ∧
    sync_to_mailchimp c7Log [c7Row7, c7Row12] = [] := by decide

/-- C7 (amended): the deduplication stage keeps, per lower-cased email, only
a row of maximal internal id among the query rows sharing that email —
never a strictly-lower-id duplicate — exactly one such row survives per
email, and every email keeps a representative; whether the surviving row
reaches the batch then depends on its own system-id check (so the batch
holds exactly the highest-id row when that row passes, and nothing for that
email otherwise). -/
theorem c7_dedup_keeps_max_id (l : List ClientRow) :
    (∀ c ∈ dedupByEmail l, c ∈ l ∧
      ∀ d ∈ l, emailKey d = emailKey c → d.id ≤ c.id) ∧
    (∀ d ∈ l, ∃ c ∈ dedupByEmail l, emailKey c = emailKey d) ∧
    ((dedupByEmail l).map emailKey).Nodup := by
  have h := dedup_fold_DInv l [] [] ⟨by simp, by simp, by simp⟩
  simp only [List.nil_append] at h
  obtain ⟨h1, h2, h3⟩ := h
  refine ⟨?_, ?_, ?_⟩
  · intro c hc
    rcases List.mem_map.mp hc with ⟨p, hp, hpc⟩
    obtain ⟨hkey, hmem, hbound⟩ := h1 p hp
    subst hpc
    exact ⟨hmem, fun d hd hkd => hbound d hd (by rw [hkd, hkey])⟩
  · intro d hd
    obtain ⟨p, hp, hpk⟩ := h2 d hd
    refine ⟨p.2, List.mem_map.mpr ⟨p, hp, rfl⟩, ?_⟩
    rw [← (h1 p hp).1, hpk]
  · have hmk : (dedupByEmail l).map emailKey
        = (l.foldl (fun m c => dictInsert m (emailKey c) c) []).map
            Prod.fst := by
      unfold dedupByEmail
      rw [List.map_map]
      apply List.map_congr_left
      intro p hp
      exact ((h1 p hp).1).symm
    rw [hmk]
    exact h3

theorem c7_witness :
    (c7wRow12 ∈ [c7wRow7, c7wRow12] ∧
      ∀ d ∈ [c7wRow7, c7wRow12],
        emailKey d = emailKey c7wRow12 → d.id ≤ c7wRow12.id) ∧
    dedupByEmail [c7wRow7, c7wRow12] = [c7wRow12] :=
  ⟨(c7_dedup_keeps_max_id [c7wRow7, c7wRow12]).1 c7wRow12 (by decide),
   by decide⟩

theorem ingest_client_mem (st : Store) (pid : Int) (d : ClientData)
    (T : Timestamp) (hWF : ClientTableWF st) :
    ∀ c' ∈ (stampClientSyncTime (upsert_client st pid d).1
      (upsert_client st pid d).2 T).clients,
      c' ∈ st.clients ∨ c'.pabau_last_synced_at = some T := by
  obtain ⟨hid, hpab, hlt⟩ := hWF
  cases hfind : st.clients.find? (fun c => c.pabau_id == pid) with
  | some c0 =>
    have hc0mem : c0 ∈ st.clients := List.mem_of_find?_eq_some hfind
    have hc0pid : c0.pabau_id = pid := by
      have h' := List.find?_some hfind
      simpa using h'
    intro c' hc'
    simp only [upsert_client, hfind, stampClientSyncTime, List.mem_map] at hc'
    obtain ⟨c1, ⟨c, hc, hfc⟩, hfc1⟩ := hc'
    by_cases hcp : (c.pabau_id == pid) = true
    · -- the conflicting row: it is unique by the pabau_id index, so the
      -- sync-time stamp lands on it
      have hceq : c = c0 :=
        List.inj_on_of_nodup_map hpab hc hc0mem
          (by rw [beq_iff_eq.mp hcp, hc0pid])
      rw [if_pos hcp] at hfc
      subst hfc
      subst hceq
      rw [if_pos (by simp)] at hfc1
      subst hfc1
      right
      rfl
    · rw [if_neg hcp] at hfc
      subst hfc
      by_cases hcid : (c.id == c0.id) = true
      · rw [if_pos hcid] at hfc1
        subst hfc1
        right
        rfl
      · rw [if_neg hcid] at hfc1
        subst hfc1
        left
        exact hc
  | none =>
    intro c' hc'
    simp only [upsert_client, hfind, stampClientSyncTime, List.map_append,
      List.mem_append, List.mem_map] at hc'
    rcases hc' with ⟨c, hc, hfc⟩ | hc'
    · by_cases hcid : (c.id == st.nextClientId) = true
      · rw [if_pos hcid] at hfc
        subst hfc
        right
        rfl
      · rw [if_neg hcid] at hfc
        subst hfc
        left
        exact hc
    · obtain ⟨a, ha, hfa⟩ := hc'
      rw [List.mem_singleton] at ha
      subst ha
      rw [if_pos (by simp)] at hfa
      subst hfa
      right
      rfl

theorem ingest_client_has_stamp (st : Store) (pid : Int) (d : ClientData)
    (T : Timestamp) :
    clientHasStamp T (stampClientSyncTime (upsert_client st pid d).1
      (upsert_client st pid d).2 T) := by
  unfold clientHasStamp
  cases hfind : st.clients.find? (fun c => c.pabau_id == pid) with
  | some c0 =>
    have hc0mem : c0 ∈ st.clients := List.mem_of_find?_eq_some hfind
    have hc0pid : (c0.pabau_id == pid) = true := by
      have h' := List.find?_some hfind
      simpa using h'
    simp only [upsert_client, hfind, stampClientSyncTime]
    refine ⟨_, List.mem_map_of_mem _ (List.mem_map_of_mem _ hc0mem), ?_⟩
    simp [hc0pid]
  | none =>
    simp only [upsert_client, hfind, stampClientSyncTime]
    refine ⟨_, List.mem_map_of_mem _
      (List.mem_append_right _ (List.mem_singleton.mpr rfl)), ?_⟩
    simp

theorem ingest_client_WF (st : Store) (pid : Int) (d : ClientData)
    (T : Timestamp) (hWF : ClientTableWF st) :
    ClientTableWF (stampClientSyncTime (upsert_client st pid d).1
      (upsert_client st pid d).2 T) := by
  obtain ⟨hid, hpab, hlt⟩ := hWF
  cases hfind : st.clients.find? (fun c => c.pabau_id == pid) with
  | some c0 =>
    unfold ClientTableWF
    simp only [upsert_client, hfind, stampClientSyncTime]
    refine ⟨?_, ?_, ?_⟩
    · rw [List.map_map, List.map_map]
      have heq : ∀ c ∈ st.clients,
          (((fun c : ClientRow => c.id) ∘
            (fun c : ClientRow =>
              if (c.id == c0.id) = true then
                { c with pabau_last_synced_at := some T } else c)) ∘
             (fun c : ClientRow =>
              if (c.pabau_id == pid) = true then
                { c with email := d.email, opt_in_email := d.opt_in_email,
                         opt_in_phone := d.opt_in_phone,
                         is_active := d.is_active,
                         created_date := d.created_date,
                         pabau_last_synced_at := some st.now } else c)) c
            = c.id := by
        intro c _
        by_cases hcp : c.pabau_id = pid <;>
          by_cases hcid : c.id = c0.id <;>
            simp [hcp, hcid]
      rw [List.map_congr_left heq]
      exact hid
    · rw [List.map_map, List.map_map]
      have heq : ∀ c ∈ st.clients,
          (((fun c : ClientRow => c.pabau_id) ∘
            (fun c : ClientRow =>
              if (c.id == c0.id) = true then
                { c with pabau_last_synced_at := some T } else c)) ∘
             (fun c : ClientRow =>
              if (c.pabau_id == pid) = true then
                { c with email := d.email, opt_in_email := d.opt_in_email,
                         opt_in_phone := d.opt_in_phone,
                         is_active := d.is_active,
                         created_date := d.created_date,
                         pabau_last_synced_at := some st.now } else c)) c
            = c.pabau_id := by
        intro c _
        by_cases hcp : c.pabau_id = pid <;>
          by_cases hcid : c.id = c0.id <;>
            simp [hcp, hcid]
      rw [List.map_congr_left heq]
      exact hpab
    · intro c' hc'
      simp only [List.mem_map] at hc'
      obtain ⟨c1, ⟨c, hc, hfc⟩, hfc1⟩ := hc'
      have hcid1 : c1.id = c.id := by
        by_cases hcp : (c.pabau_id == pid) = true
        · rw [if_pos hcp] at hfc; subst hfc; rfl
        · rw [if_neg hcp] at hfc; subst hfc; rfl
      have hcid2 : c'.id = c1.id := by
        by_cases hcq : (c1.id == c0.id) = true
        · rw [if_pos hcq] at hfc1; subst hfc1; rfl
        · rw [if_neg hcq] at hfc1; subst hfc1; rfl
      rw [hcid2, hcid1]
      exact hlt c hc
  | none =>
    have hnof : ∀ c ∈ st.clients, ¬ ((c.pabau_id == pid) = true) :=
      List.find?_eq_none.mp hfind
    unfold ClientTableWF
    simp only [upsert_client, hfind, stampClientSyncTime]
    refine ⟨?_, ?_, ?_⟩
    · rw [List.map_map, List.map_append]
      rw [List.nodup_append]
      refine ⟨?_, by simp, ?_⟩
      · have heq : ∀ c ∈ st.clients,
            ((fun c : ClientRow => c.id) ∘
              (fun c : ClientRow =>
                if (c.id == st.nextClientId) = true then
                  { c with pabau_last_synced_at := some T } else c)) c
              = c.id := by
          intro c hc
          have hne : c.id ≠ st.nextClientId := by
            intro hb
            have := hlt c hc
            omega
          simp [hne]
        rw [List.map_congr_left heq]
        exact hid
      · intro x hx hx'
        have heq : ∀ c ∈ st.clients,
            ((fun c : ClientRow => c.id) ∘
              (fun c : ClientRow =>
                if (c.id == st.nextClientId) = true then
                  { c with pabau_last_synced_at := some T } else c)) c
              = c.id := by
          intro c hc
          have hne : c.id ≠ st.nextClientId := by
            intro hb
            have := hlt c hc
            omega
          simp [hne]
        rw [List.map_congr_left heq] at hx
        rcases List.mem_map.mp hx with ⟨c, hc, hcx⟩
        have hxn : x = st.nextClientId := by simpa using hx'
        have := hlt c hc
        rw [hcx] at this
        omega
    · rw [List.map_map, List.map_append]
      rw [List.nodup_append]
      refine ⟨?_, by simp, ?_⟩
      · have heq : ∀ c ∈ st.clients,
            ((fun c : ClientRow => c.pabau_id) ∘
              (fun c : ClientRow =>
                if (c.id == st.nextClientId) = true then
                  { c with pabau_last_synced_at := some T } else c)) c
              = c.pabau_id := by
          intro c _
          by_cases hcq : c.id = st.nextClientId <;> simp [hcq]
        rw [List.map_congr_left heq]
        exact hpab
      · intro x hx hx'
        have heq : ∀ c ∈ st.clients,
            ((fun c : ClientRow => c.pabau_id) ∘
              (fun c : ClientRow =>
                if (c.id == st.nextClientId) = true then
                  { c with pabau_last_synced_at := some T } else c)) c
              = c.pabau_id := by
          intro c _
          by_cases hcq : c.id = st.nextClientId <;> simp [hcq]
        rw [List.map_congr_left heq] at hx
        rcases List.mem_map.mp hx with ⟨c, hc, hcx⟩
        have hxp : x = pid := by simpa using hx'
        apply hnof c hc
        rw [← hcx] at hxp
        exact beq_iff_eq.mpr hxp
    · intro c' hc'
      simp only [List.mem_map, List.mem_append] at hc'
      obtain ⟨c1, hc1, hfc1⟩ := hc'
      have hcid2 : c'.id = c1.id := by
        by_cases hcq : (c1.id == st.nextClientId) = true
        · rw [if_pos hcq] at hfc1; subst hfc1; rfl
        · rw [if_neg hcq] at hfc1; subst hfc1; rfl
      rcases hc1 with hc1 | hc1
      · have := hlt c1 hc1
        omega
      · have hc1n : c1.id = st.nextClientId := by
          rw [List.mem_singleton] at hc1
          subst hc1
          rfl
        omega

theorem processClient_BInv (strptime : String → Option Timestamp)
    (cutoff : Option Timestamp) (T : Timestamp) (s : PassBState)
    (raw : RawClient) (h : BInv T s) :
    BInv T (processClient strptime cutoff T s raw) := by
  obtain ⟨hWF, hle, hhas⟩ := h
  unfold processClient
  by_cases he : optStrFalsy (transform_client_for_db raw).email = true
  · rw [if_pos he]
    exact ⟨hWF, hle, hhas⟩
  · rw [if_neg he]
    by_cases hcd : createdDatePasses strptime cutoff
        (transform_client_for_db raw).created_date = true
    · rw [if_pos hcd]
      cases hpid : (transform_client_for_db raw).pabau_id with
      | none => exact ⟨hWF, hle, hhas⟩
      | some pid =>
        have hWF2 := ingest_client_WF s.store pid
          (transform_client_for_db raw) T hWF
        have hmem := ingest_client_mem s.store pid
          (transform_client_for_db raw) T hWF
        have hhas2 := ingest_client_has_stamp s.store pid
          (transform_client_for_db raw) T
        refine ⟨hWF2, ?_, fun _ => hhas2⟩
        intro c hc u hu
        rcases hmem c hc with hold | hstamp
        · exact hle c hold u hu
        · rw [hstamp] at hu
          have hTu : T = u := Option.some.inj hu
          exact le_of_eq hTu.symm
    · rw [if_neg hcd]
      exact ⟨hWF, hle, hhas⟩

theorem ingest_lead_mem (st : Store) (pid : Int) (d : LeadData)
    (T : Timestamp) (hWF : LeadTableWF st) :
    ∀ l' ∈ (stampLeadSyncTime (upsert_lead st pid d).1
      (upsert_lead st pid d).2 T).leads,
      l' ∈ st.leads ∨ l'.pabau_last_synced_at = some T := by
  obtain ⟨hid, hpab, hlt⟩ := hWF
  cases hfind : st.leads.find? (fun l => l.pabau_id == pid) with
  | some l0 =>
    have hl0mem : l0 ∈ st.leads := List.mem_of_find?_eq_some hfind
    have hl0pid : l0.pabau_id = pid := by
      have h' := List.find?_some hfind
      simpa using h'
    intro l' hl'
    simp only [upsert_lead, hfind, stampLeadSyncTime, List.mem_map] at hl'
    obtain ⟨l1, ⟨l, hl, hfl⟩, hfl1⟩ := hl'
    by_cases hlp : (l.pabau_id == pid) = true
    · have hleq : l = l0 :=
        List.inj_on_of_nodup_map hpab hl hl0mem
          (by rw [beq_iff_eq.mp hlp, hl0pid])
      rw [if_pos hlp] at hfl
      subst hfl
      subst hleq
      rw [if_pos (by simp)] at hfl1
      subst hfl1
      right
      rfl
    · rw [if_neg hlp] at hfl
      subst hfl
      by_cases hlid : (l.id == l0.id) = true
      · rw [if_pos hlid] at hfl1
        subst hfl1
        right
        rfl
      · rw [if_neg hlid] at hfl1
        subst hfl1
        left
        exact hl
  | none =>
    intro l' hl'
    simp only [upsert_lead, hfind, stampLeadSyncTime, List.map_append,
      List.mem_append, List.mem_map] at hl'
    rcases hl' with ⟨l, hl, hfl⟩ | hl'
    · by_cases hlid : (l.id == st.nextLeadId) = true
      · rw [if_pos hlid] at hfl
        subst hfl
        right
        rfl
      · rw [if_neg hlid] at hfl
        subst hfl
        left
        exact hl
    · obtain ⟨a, ha, hfa⟩ := hl'
      rw [List.mem_singleton] at ha
      subst ha
      rw [if_pos (by simp)] at hfa
      subst hfa
      right
      rfl

theorem ingest_lead_has_stamp (st : Store) (pid : Int) (d : LeadData)
    (T : Timestamp) :
    leadHasStamp T (stampLeadSyncTime (upsert_lead st pid d).1
      (upsert_lead st pid d).2 T) := by
  unfold leadHasStamp
  cases hfind : st.leads.find? (fun l => l.pabau_id == pid) with
  | some l0 =>
    have hl0mem : l0 ∈ st.leads := List.mem_of_find?_eq_some hfind
    have hl0pid : (l0.pabau_id == pid) = true := by
      have h' := List.find?_some hfind
      simpa using h'
    simp only [upsert_lead, hfind, stampLeadSyncTime]
    refine ⟨_, List.mem_map_of_mem _ (List.mem_map_of_mem _ hl0mem), ?_⟩
    simp [hl0pid]
  | none =>
    simp only [upsert_lead, hfind, stampLeadSyncTime]
    refine ⟨_, List.mem_map_of_mem _
      (List.mem_append_right _ (List.mem_singleton.mpr rfl)), ?_⟩
    simp

theorem ingest_lead_WF (st : Store) (pid : Int) (d : LeadData)
    (T : Timestamp) (hWF : LeadTableWF st) :
    LeadTableWF (stampLeadSyncTime (upsert_lead st pid d).1
      (upsert_lead st pid d).2 T) := by
  obtain ⟨hid, hpab, hlt⟩ := hWF
  cases hfind : st.leads.find? (fun l => l.pabau_id == pid) with
  | some l0 =>
    unfold LeadTableWF
    simp only [upsert_lead, hfind, stampLeadSyncTime]
    refine ⟨?_, ?_, ?_⟩
    · rw [List.map_map, List.map_map]
      have heq : ∀ l ∈ st.leads,
          (((fun l : LeadRow => l.id) ∘
            (fun l : LeadRow =>
              if (l.id == l0.id) = true then
                { l with pabau_last_synced_at := some T } else l)) ∘
             (fun l : LeadRow =>
              if (l.pabau_id == pid) = true then
                { l with email := d.email,
                         opt_in_email_mailchimp := d.opt_in_email_mailchimp,
                         is_active := d.is_active,
                         created_date := d.created_date,
                         pabau_last_synced_at := some st.now } else l)) l
            = l.id := by
        intro l _
        by_cases hlp : l.pabau_id = pid <;>
          by_cases hlid : l.id = l0.id <;>
            simp [hlp, hlid]
      rw [List.map_congr_left heq]
      exact hid
    · rw [List.map_map, List.map_map]
      have heq : ∀ l ∈ st.leads,
          (((fun l : LeadRow => l.pabau_id) ∘
            (fun l : LeadRow =>
              if (l.id == l0.id) = true then
                { l with pabau_last_synced_at := some T } else l)) ∘
             (fun l : LeadRow =>
              if (l.pabau_id == pid) = true then
                { l with email := d.email,
                         opt_in_email_mailchimp := d.opt_in_email_mailchimp,
                         is_active := d.is_active,
                         created_date := d.created_date,
                         pabau_last_synced_at := some st.now } else l)) l
            = l.pabau_id := by
        intro l _
        by_cases hlp : l.pabau_id = pid <;>
          by_cases hlid : l.id = l0.id <;>
            simp [hlp, hlid]
      rw [List.map_congr_left heq]
      exact hpab
    · intro l' hl'
      simp only [List.mem_map] at hl'
      obtain ⟨l1, ⟨l, hl, hfl⟩, hfl1⟩ := hl'
      have hlid1 : l1.id = l.id := by
        by_cases hlp : (l.pabau_id == pid) = true
        · rw [if_pos hlp] at hfl; subst hfl; rfl
        · rw [if_neg hlp] at hfl; subst hfl; rfl
      have hlid2 : l'.id = l1.id := by
        by_cases hlq : (l1.id == l0.id) = true
        · rw [if_pos hlq] at hfl1; subst hfl1; rfl
        · rw [if_neg hlq] at hfl1; subst hfl1; rfl
      rw [hlid2, hlid1]
      exact hlt l hl
  | none =>
    have hnof : ∀ l ∈ st.leads, ¬ ((l.pabau_id == pid) = true) :=
      List.find?_eq_none.mp hfind
    unfold LeadTableWF
    simp only [upsert_lead, hfind, stampLeadSyncTime]
    refine ⟨?_, ?_, ?_⟩
    · rw [List.map_map, List.map_append]
      rw [List.nodup_append]
      refine ⟨?_, by simp, ?_⟩
      · have heq : ∀ l ∈ st.leads,
            ((fun l : LeadRow => l.id) ∘
              (fun l : LeadRow =>
                if (l.id == st.nextLeadId) = true then
                  { l with pabau_last_synced_at := some T } else l)) l
              = l.id := by
          intro l hl
          have hne : l.id ≠ st.nextLeadId := by
            intro hb
            have := hlt l hl
            omega
          simp [hne]
        rw [List.map_congr_left heq]
        exact hid
      · intro x hx hx'
        have heq : ∀ l ∈ st.leads,
            ((fun l : LeadRow => l.id) ∘
              (fun l : LeadRow =>
                if (l.id == st.nextLeadId) = true then
                  { l with pabau_last_synced_at := some T } else l)) l
              = l.id := by
          intro l hl
          have hne : l.id ≠ st.nextLeadId := by
            intro hb
            have := hlt l hl
            omega
          simp [hne]
        rw [List.map_congr_left heq] at hx
        rcases List.mem_map.mp hx with ⟨l, hl, hlx⟩
        have hxn : x = st.nextLeadId := by simpa using hx'
        have := hlt l hl
        rw [hlx] at this
        omega
    · rw [List.map_map, List.map_append]
      rw [List.nodup_append]
      refine ⟨?_, by simp, ?_⟩
      · have heq : ∀ l ∈ st.leads,
            ((fun l : LeadRow => l.pabau_id) ∘
              (fun l : LeadRow =>
                if (l.id == st.nextLeadId) = true then
                  { l with pabau_last_synced_at := some T } else l)) l
              = l.pabau_id := by
          intro l _
          by_cases hlq : l.id = st.nextLeadId <;> simp [hlq]
        rw [List.map_congr_left heq]
        exact hpab
      · intro x hx hx'
        have heq : ∀ l ∈ st.leads,
            ((fun l : LeadRow => l.pabau_id) ∘
              (fun l : LeadRow =>
                if (l.id == st.nextLeadId) = true then
                  { l with pabau_last_synced_at := some T } else l)) l
              = l.pabau_id := by
          intro l _
          by_cases hlq : l.id = st.nextLeadId <;> simp [hlq]
        rw [List.map_congr_left heq] at hx
        rcases List.mem_map.mp hx with ⟨l, hl, hlx⟩
        have hxp : x = pid := by simpa using hx'
        apply hnof l hl
        rw [← hlx] at hxp
        exact beq_iff_eq.mpr hxp
    · intro l' hl'
      simp only [List.mem_map, List.mem_append] at hl'
      obtain ⟨l1, hl1, hfl1⟩ := hl'
      have hlid2 : l'.id = l1.id := by
        by_cases hlq : (l1.id == st.nextLeadId) = true
        · rw [if_pos hlq] at hfl1; subst hfl1; rfl
        · rw [if_neg hlq] at hfl1; subst hfl1; rfl
      rcases hl1 with hl1 | hl1
      · have := hlt l1 hl1
        omega
      · have hl1n : l1.id = st.nextLeadId := by
          rw [List.mem_singleton] at hl1
          subst hl1
          rfl
        omega

theorem processLead_LInv (strptime : String → Option Timestamp)
    (cutoff : Option Timestamp) (T : Timestamp) (s : LeadPassState)
    (raw : RawLead) (h : LInv T s) :
    LInv T (processLead strptime cutoff T s raw) := by
  obtain ⟨hWF, hle, hhas⟩ := h
  unfold processLead
  by_cases he : optStrFalsy (transform_lead_for_db raw).email = true
  · rw [if_pos he]
    exact ⟨hWF, hle, hhas⟩
  · rw [if_neg he]
    by_cases hcd : createdDatePasses strptime cutoff
        (transform_lead_for_db raw).created_date = true
    · rw [if_pos hcd]
      cases hpid : (transform_lead_for_db raw).pabau_id with
      | none => exact ⟨hWF, hle, hhas⟩
      | some pid =>
        have hWF2 := ingest_lead_WF s.store pid
          (transform_lead_for_db raw) T hWF
        have hmem := ingest_lead_mem s.store pid
          (transform_lead_for_db raw) T hWF
        have hhas2 := ingest_lead_has_stamp s.store pid
          (transform_lead_for_db raw) T
        refine ⟨hWF2, ?_, fun _ => hhas2⟩
        intro l hl u hu
        rcases hmem l hl with hold | hstamp
        · exact hle l hold u hu
        · rw [hstamp] at hu
          have hTu : T = u := Option.some.inj hu
          exact le_of_eq hTu.symm
    · rw [if_neg hcd]
      exact ⟨hWF, hle, hhas⟩

/-- C1 (counterexample): `get_last_sync_time` is `MAX(pabau_last_synced_at)`
— a wall-clock sync stamp — not the maximum stored `created_date`: a store
whose one client was created at 100 but stamped at 500 yields cutoff 500,
and a first run (no cutoff) over records created at 20 and 10 with
`sync_time` 900 leaves the cursor at 900, not at the maximum ingested
`created_date` 20. -/
theorem c1_counterexample :
    get_last_sync_time c1Store.clients = some 500 ∧
    specCutoffMaxCreatedDate strptimeFail c1Store.clients = some 100 ∧
    get_last_sync_time c1Store.clients
      ≠ specCutoffMaxCreatedDate strptimeFail c1Store.clients ∧
    get_last_sync_time (sync_pabau_clients strptimeFail [[c1RawA, c1RawB]]
      emptyStore 900).state.store.clients = some 900 ∧
    specCutoffMaxCreatedDate strptimeFail
      (sync_pabau_clients strptimeFail [[c1RawA, c1RawB]] emptyStore
        900).state.store.clients = some 20 ∧
    (some 900 : Option Timestamp) ≠ some 20 := by decide

/-- C1 (amended): the per-entity-type cutoff `get_last_sync_time` is the
maximum `pabau_last_synced_at` stamp of the stored rows, and after a run
that ingests at least one record — over a well-formed table whose prior
stamps do not exceed the run's wall-clock `sync_time` — the recorded cursor
equals that `sync_time`, for clients and for leads alike. -/
theorem c1_cursor_is_sync_time (strptime : String → Option Timestamp)
    (pagesC : List (List RawClient)) (pagesL : List (List RawLead))
    (st0 st1 : Store) (tC tL : Timestamp)
    (hWFC : ClientTableWF st0) (hWFL : LeadTableWF st1)
    (hleC : clientStampsLE tC st0) (hleL : leadStampsLE tL st1)
    (hingC :
      0 < (sync_pabau_clients strptime pagesC st0 tC).state.clientsUpdated)
    (hingL :
      0 < (sync_pabau_leads strptime pagesL st1 tL).state.updatedCount) :
    get_last_sync_time
      (sync_pabau_clients strptime pagesC st0 tC).state.store.clients
        = some tC ∧
    get_last_sync_time_leads
      (sync_pabau_leads strptime pagesL st1 tL).state.store.leads
        = some tL := by
  constructor
  · have hinv : BInv tC (runPages (processClient strptime
        (get_last_sync_time st0.clients) tC) pagesC
        { store := st0, clientsUpdated := 0, skippedOld := 0,
          skippedNoEmail := 0 }).1 :=
      runPages_invariant _
        (fun s a hs => processClient_BInv strptime _ tC s a hs) pagesC _
        ⟨hWFC, hleC, fun hp => absurd hp (Nat.lt_irrefl 0)⟩
    obtain ⟨hWF2, hle2, hhas2⟩ := hinv
    have hhas3 := hhas2 hingC
    unfold get_last_sync_time
    apply maxTS_eq_of_le_of_mem
    · intro u hu
      rcases List.mem_filterMap.mp hu with ⟨c, hc, hcu⟩
      exact hle2 c hc u hcu
    · obtain ⟨c, hc, hcs⟩ := hhas3
      exact List.mem_filterMap.mpr ⟨c, hc, hcs⟩
  · have hinv : LInv tL (runPages (processLead strptime
        (get_last_sync_time_leads st1.leads) tL) pagesL
        { store := st1, updatedCount := 0, skippedOld := 0,
          skippedNoEmail := 0 }).1 :=
      runPages_invariant _
        (fun s a hs => processLead_LInv strptime _ tL s a hs) pagesL _
        ⟨hWFL, hleL, fun hp => absurd hp (Nat.lt_irrefl 0)⟩
    obtain ⟨hWF2, hle2, hhas2⟩ := hinv
    have hhas3 := hhas2 hingL
    unfold get_last_sync_time_leads
    apply maxTS_eq_of_le_of_mem
    · intro u hu
      rcases List.mem_filterMap.mp hu with ⟨l, hl, hlu⟩
      exact hle2 l hl u hlu
    · obtain ⟨l, hl, hls⟩ := hhas3
      exact List.mem_filterMap.mpr ⟨l, hl, hls⟩

theorem c1_witness :
    get_last_sync_time (sync_pabau_clients strptimeFail [[c1RawA]]
      emptyStore 900).state.store.clients = some 900 ∧
    get_last_sync_time_leads (sync_pabau_leads strptimeFail [[c1RawLead]]
      emptyStore 901).state.store.leads = some 901 :=
  c1_cursor_is_sync_time strptimeFail [[c1RawA]] [[c1RawLead]]
    emptyStore emptyStore 900 901
    (by constructor <;> simp [emptyStore, ClientTableWF])
    (by constructor <;> simp [emptyStore, LeadTableWF])
    (by intro c hc u hu; simp [emptyStore] at hc)
    (by intro l hl u hu; simp [emptyStore] at hl)
    (by decide) (by decide)
